import Mathlib

/-!
Verification development for the morphology_wizard neuron-growth core.

Shallow embedding of the Rust sources:
  src/src/lib.rs              (growth engine, validation, diameter solver)
  src/src/linalg.rs           (three dimensional vector helpers)
  src/src/dendrite_diameter.rs (alternate copy of the diameter solver)
  src/src/carrier_points.rs   (carrier point sampler; thinning pass)

Modelling conventions:
  * f64 values are modelled as real numbers with exact arithmetic; IEEE
    rounding and NaN are not modelled.  The two distance limits
    (extension_distance, branch_distance) can hold an IEEE infinity which
    the code tests with is_finite, so those two fields are modelled as
    EReal; every other float is a plain real.
  * u32 counters and indices are modelled as naturals.  The code asserts
    that instruction and node counts stay below u32::MAX, so wrap-around
    is unreachable and is not modelled.
  * The Rust sentinel parent_index == u32::MAX is modelled as Option.
  * Panics (assert!, expect, todo!) are modelled by returning none.
  * The BinaryHeap is modelled as a list; pop returns a maximal element
    under the reversed candidate ordering (the earliest maximal element,
    a deterministic refinement of the unspecified Rust tie order), and
    kd-tree range queries return hits in carrier-index order (kiddo
    within_unsorted returns hits in unspecified order).
  * The main growth loop is a while-let loop; it is modelled with an
    explicit fuel parameter, with none returned when fuel runs out.
-/

namespace MorphWiz

/-- A point in three dimensions, modelling the Rust type [f64; 3]. -/
structure Vec3 where
  x : ℝ
  y : ℝ
  z : ℝ

instance : Inhabited Vec3 := ⟨⟨0, 0, 0⟩⟩

/-- linalg::sub from src/src/linalg.rs (note the argument order: it returns b - a). -/
def sub (a b : Vec3) : Vec3 := ⟨b.x - a.x, b.y - a.y, b.z - a.z⟩

/-- linalg::dot from src/src/linalg.rs. -/
def dot (a b : Vec3) : ℝ := a.x * b.x + a.y * b.y + a.z * b.z

/-- linalg::mag from src/src/linalg.rs. -/
noncomputable def mag (v : Vec3) : ℝ := Real.sqrt (v.x ^ 2 + v.y ^ 2 + v.z ^ 2)

/-- linalg::distance from src/src/linalg.rs. -/
noncomputable def distance (a b : Vec3) : ℝ := mag (sub a b)

/-- linalg::angle from src/src/linalg.rs. -/
noncomputable def angle (a b : Vec3) : ℝ := Real.arccos (dot a b / mag a / mag b)

/-- The squared Euclidean distance, as computed by the kiddo kd-tree with
the SquaredEuclidean metric. -/
def squared_distance (a b : Vec3) : ℝ := (sub a b).x ^ 2 + (sub a b).y ^ 2 + (sub a b).z ^ 2

/-- The f64 machine epsilon used by the angle guard in the growth loop. -/
noncomputable def f64_epsilon : ℝ := (2 : ℝ) ^ (-52 : ℤ)

/-- Morphology from src/src/lib.rs lines 184-223.  The two distance limits can
be an IEEE infinity (EReal); there is no maximum_segment_length and no
reach_all_carrier_points field in this struct. -/
structure Morphology where
  balancing_factor : ℝ
  extension_distance : EReal
  extension_angle : ℝ
  branch_distance : EReal
  branch_angle : ℝ
  extend_before_branch : Bool
  maximum_branches : ℕ
  minimum_diameter : ℝ
  diameter_taper : ℝ

/-- Morphology::is_dendrite from src/src/lib.rs. -/
def Morphology.is_dendrite (m : Morphology) : Bool := !m.extend_before_branch

/-- Morphology::is_axon from src/src/lib.rs. -/
def Morphology.is_axon (m : Morphology) : Bool := m.extend_before_branch

/-- Instruction from src/src/lib.rs lines 269-294. -/
structure Instruction where
  morphology : Option Morphology
  soma_diameter : Option ℝ
  carrier_points : List Vec3
  roots : List ℕ

instance : Inhabited Instruction := ⟨⟨none, none, [], []⟩⟩

/-- Instruction::is_soma from src/src/lib.rs. -/
def Instruction.is_soma (i : Instruction) : Prop := i.morphology = none

/-- Instruction::is_dendrite from src/src/lib.rs. -/
def Instruction.is_dendrite (i : Instruction) : Bool :=
  match i.morphology with
  | some m => m.is_dendrite
  | none => false

/-- Instruction::is_axon from src/src/lib.rs. -/
def Instruction.is_axon (i : Instruction) : Bool :=
  match i.morphology with
  | some m => m.is_axon
  | none => false

/-- The per-morphology assertions of Instruction::check (src/src/lib.rs lines 312-318). -/
def Morphology.check_params (m : Morphology) : Prop :=
  0 ≤ m.balancing_factor ∧
  (0 : EReal) ≤ m.extension_distance ∧
  (0 : EReal) ≤ m.branch_distance ∧
  (0 ≤ m.extension_angle ∧ m.extension_angle ≤ Real.pi) ∧
  (0 ≤ m.branch_angle ∧ m.branch_angle ≤ Real.pi) ∧
  0 < m.minimum_diameter ∧
  0 ≤ m.diameter_taper

/-- The assertions Instruction::check makes for the instruction at the given
index (src/src/lib.rs lines 309-329).  A violated assertion panics in Rust;
the model returns whether all assertions hold. -/
def Instruction.check_at (instr_index : ℕ) (instr : Instruction) : Prop :=
  match instr.morphology with
  | some morphology =>
      morphology.check_params ∧
      (∀ root_instr ∈ instr.roots, root_instr < instr_index) ∧
      instr.soma_diameter = none
  | none =>
      instr.roots = [] ∧
      ∃ soma_diameter, instr.soma_diameter = some soma_diameter ∧ 0 < soma_diameter

/-- Instruction::check from src/src/lib.rs lines 309-329. -/
def Instruction.check (instructions : List Instruction) : Prop :=
  ∀ instr_index instr, instructions.get? instr_index = some instr →
    Instruction.check_at instr_index instr

/-- Node from src/src/lib.rs lines 352-359.  The u32::MAX parent sentinel is
modelled with Option. -/
structure Node where
  coordinates : Vec3
  diameter : ℝ
  parent_index : Option ℕ
  instruction_index : ℕ
  num_children : ℕ
  path_length : ℝ

instance : Inhabited Node := ⟨⟨⟨0, 0, 0⟩, 0, none, 0, 0, 0⟩⟩

/-- Node::is_root from src/src/lib.rs. -/
def Node.is_root (n : Node) : Prop := n.parent_index = none

/-- Node::is_segment from src/src/lib.rs. -/
def Node.is_segment (n : Node) : Prop := n.parent_index ≠ none

/-- Node::is_terminal from src/src/lib.rs. -/
def Node.is_terminal (n : Node) : Prop := n.num_children = 0

instance (n : Node) : Decidable n.is_root := by unfold Node.is_root; infer_instance

instance (n : Node) : Decidable n.is_segment := by unfold Node.is_segment; infer_instance

instance (n : Node) : Decidable n.is_terminal := by unfold Node.is_terminal; infer_instance

/-- Node::new_root from src/src/lib.rs lines 411-420. -/
def Node.new_root (coordinates : Vec3) (diameter : ℝ) (instruction_index : ℕ) : Node :=
  { coordinates := coordinates
    diameter := diameter
    parent_index := none
    instruction_index := instruction_index
    num_children := 0
    path_length := 0 }

/-- Node::new_segment from src/src/lib.rs lines 421-436. -/
def Node.new_segment (coordinates : Vec3) (diameter : ℝ) (parent_index : ℕ)
    (instruction_index : ℕ) (path_length : ℝ) : Node :=
  { coordinates := coordinates
    diameter := diameter
    parent_index := some parent_index
    instruction_index := instruction_index
    num_children := 0
    path_length := path_length }

/-- PotentialSegment from src/src/lib.rs lines 540-553. -/
structure PotentialSegment where
  branch_num : ℕ
  priority : ℝ
  carrier_index : ℕ
  parent_index : ℕ

/-- u32 comparison (Ord for u32). -/
def nat_cmp (a b : ℕ) : Ordering :=
  if a < b then Ordering.lt else if b < a then Ordering.gt else Ordering.eq

/-- f64::total_cmp.  On the real-number model (no NaN, no signed zero
distinction) the total order coincides with the usual order. -/
noncomputable def total_cmp (a b : ℝ) : Ordering :=
  if a < b then Ordering.lt else if b < a then Ordering.gt else Ordering.eq

/-- Ord for PotentialSegment from src/src/lib.rs lines 569-576: compare by
branch_num, then priority, then reverse the whole ordering because the
queue is a max-heap. -/
noncomputable def PotentialSegment.cmp (a b : PotentialSegment) : Ordering :=
  ((nat_cmp a.branch_num b.branch_num).then (total_cmp a.priority b.priority)).swap

/-- BinaryHeap::pop: remove and return a greatest element under the candidate
ordering.  The model deterministically returns the earliest greatest element;
Rust leaves the choice among ties unspecified. -/
noncomputable def pop_best : List PotentialSegment → Option (PotentialSegment × List PotentialSegment)
  | [] => none
  | x :: xs =>
    match pop_best xs with
    | none => some (x, [])
    | some (y, ys) => if x.cmp y = Ordering.lt then some (y, x :: ys) else some (x, xs)

/-- WorkingData::priority from src/src/lib.rs lines 533-537. -/
def priority (morphology : Morphology) (parent_node : Node) (segment_length : ℝ) : ℝ :=
  let path_length := segment_length + parent_node.path_length
  segment_length + morphology.balancing_factor * path_length

/-- The permissive radius used when candidates are enqueued
(src/src/lib.rs lines 491-497). -/
noncomputable def enqueue_maximum_distance (morphology : Morphology) (parent_node : Node) : EReal :=
  if parent_node.is_root then morphology.extension_distance
  else if parent_node.num_children = 0 then
    max morphology.extension_distance morphology.branch_distance
  else morphology.branch_distance

/-- The maximum distance recomputed when a candidate is popped
(src/src/lib.rs lines 638-642). -/
noncomputable def pop_maximum_distance (morphology : Morphology) (parent_node : Node) : EReal :=
  if parent_node.is_root ∨ parent_node.num_children = 0 then morphology.extension_distance
  else morphology.branch_distance

/-- WorkingData::consider_all_potential_segments from src/src/lib.rs lines
470-531.  When the permissive radius is finite the kd-tree is queried with
the squared radius under the squared Euclidean metric; otherwise every
unoccupied carrier point is enqueued.  Hits are produced in carrier-index
order (the Rust ordering is unspecified). -/
noncomputable def consider_all_potential_segments (morphology : Morphology)
    (carrier_points : List Vec3) (occupied : List Bool)
    (parent_index : ℕ) (parent_node : Node) : List PotentialSegment :=
  if parent_node.is_segment ∧ parent_node.num_children > morphology.maximum_branches then []
  else
    let branch_num := if morphology.extend_before_branch then parent_node.num_children else 0
    let maximum_distance : EReal := enqueue_maximum_distance morphology parent_node
    if maximum_distance ≠ ⊤ ∧ maximum_distance ≠ ⊥ then
      (List.range carrier_points.length).filterMap (fun carrier_index =>
        let d2 := squared_distance parent_node.coordinates (carrier_points.getD carrier_index default)
        if d2 ≤ maximum_distance.toReal ^ 2 then
          if occupied.getD carrier_index false then none
          else some { branch_num := branch_num
                      priority := priority morphology parent_node (Real.sqrt d2)
                      carrier_index := carrier_index
                      parent_index := parent_index }
        else none)
    else
      (List.range carrier_points.length).filterMap (fun carrier_index =>
        if occupied.getD carrier_index false then none
        else
          let segment_length := distance parent_node.coordinates (carrier_points.getD carrier_index default)
          some { branch_num := branch_num
                 priority := priority morphology parent_node segment_length
                 carrier_index := carrier_index
                 parent_index := parent_index })

/-- State of one growth instruction: the shared node array, the per-instruction
occupied bitset and the priority queue. -/
structure GrowState where
  nodes : List Node
  occupied : List Bool
  queue : List PotentialSegment

/-- The body of the main growth loop from src/src/lib.rs lines 616-687,
processing one popped candidate segment. -/
noncomputable def process_segment (morphology : Morphology) (carrier_points : List Vec3)
    (instr_index : ℕ) (nodes : List Node) (occupied : List Bool)
    (seg : PotentialSegment) (rest : List PotentialSegment) : GrowState :=
  if occupied.getD seg.carrier_index false then ⟨nodes, occupied, rest⟩
  else
    let parent_node := nodes.getD seg.parent_index default
    let num_siblings := parent_node.num_children
    let coordinates := carrier_points.getD seg.carrier_index default
    let segment_length := distance parent_node.coordinates coordinates
    if parent_node.is_segment ∧ num_siblings > morphology.maximum_branches then
      ⟨nodes, occupied, rest⟩
    else
      let maximum_distance : EReal := pop_maximum_distance morphology parent_node
      if (segment_length : EReal) > maximum_distance then ⟨nodes, occupied, rest⟩
      else
        let maximum_angle := if num_siblings = 0 then morphology.extension_angle
          else morphology.branch_angle
        if maximum_angle < Real.pi - f64_epsilon ∧ parent_node.is_segment ∧
            (let grandparent_coords :=
               (nodes.getD (parent_node.parent_index.getD 0) default).coordinates
             let parent_vector := sub grandparent_coords parent_node.coordinates
             let segment_vector := sub parent_node.coordinates coordinates
             angle parent_vector segment_vector > maximum_angle) then
          ⟨nodes, occupied, rest⟩
        else if morphology.extend_before_branch ∧ seg.branch_num < num_siblings then
          ⟨nodes, occupied, rest ++ [{ seg with branch_num := num_siblings }]⟩
        else
          let node_index := nodes.length
          let new_node := Node.new_segment coordinates morphology.minimum_diameter
            seg.parent_index instr_index (parent_node.path_length + segment_length)
          let nodes2 := nodes ++ [new_node]
          let occupied2 := occupied.set seg.carrier_index true
          let nodes3 := nodes2.set seg.parent_index
            { parent_node with num_children := parent_node.num_children + 1 }
          ⟨nodes3, occupied2,
            rest ++ consider_all_potential_segments morphology carrier_points occupied2
              node_index (nodes3.getD node_index default)⟩

/-- One iteration of the while-let growth loop: pop the best candidate and
process it; none when the queue is empty. -/
noncomputable def grow_step (morphology : Morphology) (carrier_points : List Vec3)
    (instr_index : ℕ) (s : GrowState) : Option GrowState :=
  match pop_best s.queue with
  | none => none
  | some (seg, rest) =>
    some (process_segment morphology carrier_points instr_index s.nodes s.occupied seg rest)

/-- The while-let growth loop from src/src/lib.rs lines 616-687, with fuel. -/
noncomputable def grow_loop (morphology : Morphology) (carrier_points : List Vec3)
    (instr_index : ℕ) : ℕ → GrowState → Option GrowState
  | 0, s =>
    match pop_best s.queue with
    | none => some s
    | some _ => none
  | fuel + 1, s =>
    match grow_step morphology carrier_points instr_index s with
    | none => some s
    | some s2 => grow_loop morphology carrier_points instr_index fuel s2

/-- The seeding loop from src/src/lib.rs lines 607-613: enqueue potential
segments from every node in every listed root section. -/
noncomputable def seed_queue (morphology : Morphology) (instr : Instruction)
    (nodes : List Node) (sections : List (ℕ × ℕ)) : List PotentialSegment :=
  let occupied := List.replicate instr.carrier_points.length false
  instr.roots.flatMap (fun root_instr =>
    let sec := sections.getD root_instr (0, 0)
    (List.range' sec.1 (sec.2 - sec.1)).flatMap (fun root_index =>
      consider_all_potential_segments morphology instr.carrier_points occupied
        root_index (nodes.getD root_index default)))

/-- Processing of one instruction by create (src/src/lib.rs lines 593-689):
soma instructions push one root per carrier point; neurite instructions seed
the queue from the root sections and run the growth loop. -/
noncomputable def run_instruction (fuel : ℕ) (instr_index : ℕ) (instr : Instruction)
    (nodes : List Node) (sections : List (ℕ × ℕ)) :
    Option (List Node × List (ℕ × ℕ)) :=
  let section_start := nodes.length
  match instr.morphology with
  | none =>
    match instr.soma_diameter with
    | none => none
    | some soma_diameter =>
      let nodes2 := nodes ++ instr.carrier_points.map
        (fun coordinates => Node.new_root coordinates soma_diameter instr_index)
      some (nodes2, sections ++ [(section_start, nodes2.length)])
  | some morphology =>
    let s0 : GrowState :=
      ⟨nodes, List.replicate instr.carrier_points.length false,
        seed_queue morphology instr nodes sections⟩
    match grow_loop morphology instr.carrier_points instr_index fuel s0 with
    | none => none
    | some s => some (s.nodes, sections ++ [(section_start, s.nodes.length)])

/-- The instruction fold inside create. -/
noncomputable def run_instructions (fuel : ℕ) :
    List Instruction → ℕ → List Node × List (ℕ × ℕ) → Option (List Node × List (ℕ × ℕ))
  | [], _, acc => some acc
  | instr :: rest, instr_index, acc =>
    match run_instruction fuel instr_index instr acc.1 acc.2 with
    | none => none
    | some acc2 => run_instructions fuel rest (instr_index + 1) acc2

/-- The embedded diameter table of DendriteDiameterQuadraticApprox
(src/src/lib.rs lines 696-709).  The table contents live in two text files
that ship with the binary and are not in the sources; the solver is therefore
parametrized by the table. -/
structure DendriteDiameterQuadraticApprox where
  dendrite_lengths : List ℝ
  polynomials : List (ℝ × ℝ × ℝ)

/-- The number of leading elements below the query: on sorted data this is the
insertion point computed by slice::binary_search_by (src/src/lib.rs line 828). -/
noncomputable def count_lt : List ℝ → ℝ → ℕ
  | [], _ => 0
  | x :: xs, q => if x < q then count_lt xs q + 1 else 0

/-- interp_points from src/src/lib.rs lines 827-846.  binary_search_by on the
sorted, deduplicated table is modelled through the insertion point count_lt:
the search succeeds exactly when the element at the insertion point equals
the query. -/
noncomputable def interp_points (data : List ℝ) (query_value : ℝ) :
    ℕ × Option (ℝ × ℕ × ℝ) :=
  let upper_index := count_lt data query_value
  if upper_index < data.length ∧ data.getD upper_index 0 = query_value then
    (upper_index, none)
  else if upper_index = 0 then (upper_index, none)
  else if upper_index = data.length then (upper_index - 1, none)
  else
    let lower_index := upper_index - 1
    let upper_value := data.getD upper_index 0
    let lower_value := data.getD lower_index 0
    let total_dist := upper_value - lower_value
    let upper_dist := (upper_value - query_value) / total_dist
    let lower_dist := (query_value - lower_value) / total_dist
    (lower_index, some (lower_dist, upper_index, upper_dist))

/-- Polynomial scaling step of DendriteDiameterQuadraticApprox as written in
src/src/lib.rs line 769: polynomial.map applies term * scale + offset to all
three coefficients. -/
def scale_polynomial (polynomial : ℝ × ℝ × ℝ) (scale offset : ℝ) : ℝ × ℝ × ℝ :=
  (polynomial.1 * scale + offset, polynomial.2.1 * scale + offset, polynomial.2.2 * scale + offset)

/-- Polynomial scaling step of QuadraticApprox::apply as written in
src/src/dendrite_diameter.rs lines 76-80: the offset is added only to the
constant coefficient. -/
def quadratic_approx_scale (polynomial : ℝ × ℝ × ℝ) (scale offset : ℝ) : ℝ × ℝ × ℝ :=
  (polynomial.1 * scale, polynomial.2.1 * scale, polynomial.2.2 * scale + offset)

/-- add_arrays from src/src/lib.rs lines 848-853, at size three. -/
def add_arrays3 (a b : ℝ × ℝ × ℝ) : ℝ × ℝ × ℝ := (a.1 + b.1, a.2.1 + b.2.1, a.2.2 + b.2.2)

/-- Componentwise weighting, polynomial.map with term * weight. -/
def smul3 (p : ℝ × ℝ × ℝ) (w : ℝ) : ℝ × ℝ × ℝ := (p.1 * w, p.2.1 * w, p.2.2 * w)

/-- Quadratic evaluation from src/src/lib.rs line 777. -/
def eval_polynomial (p : ℝ × ℝ × ℝ) (d : ℝ) : ℝ := p.1 * d ^ 2 + p.2.1 * d + p.2.2

/-- The walk from a terminal to its root (src/src/lib.rs lines 772-787),
accumulating (num_paths, sum_diams) pairs.  The cursor follows parent
indices; fuel bounds the walk (the node array is topologically sorted, so
nodes.length steps always suffice). -/
noncomputable def path_walk (nodes : List Node) (polynomial : ℝ × ℝ × ℝ)
    (normalization_factor : ℝ) : ℕ → ℕ → List (ℕ × ℝ) → List (ℕ × ℝ)
  | 0, _, accum => accum
  | fuel + 1, cursor_index, accum =>
    let cursor_node := nodes.getD cursor_index default
    let d := cursor_node.path_length * normalization_factor
    let diameter := eval_polynomial polynomial d
    let entry := accum.getD cursor_index (0, 0)
    let accum2 := accum.set cursor_index (entry.1 + 1, entry.2 + diameter)
    match cursor_node.parent_index with
    | some parent_index => path_walk nodes polynomial normalization_factor fuel parent_index accum2
    | none => accum2

/-- The accumulation phase of calculate_quadratic_diameters
(src/src/lib.rs lines 748-788). -/
noncomputable def DendriteDiameterQuadraticApprox.accumulate
    (dd : DendriteDiameterQuadraticApprox) (instructions : List Instruction)
    (nodes : List Node) : List (ℕ × ℝ) :=
  (List.range nodes.length).foldl (fun accum terminal_index =>
    let terminal_node := nodes.getD terminal_index default
    if terminal_node.is_terminal then
      match (instructions.getD terminal_node.instruction_index default).morphology with
      | none => accum
      | some morph =>
        let scale := morph.diameter_taper
        let offset := morph.minimum_diameter
        let ip := interp_points dd.dendrite_lengths terminal_node.path_length
        let polynomial :=
          match ip.2 with
          | none => dd.polynomials.getD ip.1 default
          | some w =>
            add_arrays3 (smul3 (dd.polynomials.getD ip.1 default) w.1)
              (smul3 (dd.polynomials.getD w.2.1 default) w.2.2)
        let polynomial := scale_polynomial polynomial scale offset
        path_walk nodes polynomial (1 / terminal_node.path_length) nodes.length
          terminal_index accum
    else accum) (List.replicate nodes.length (0, 0))

/-- DendriteDiameterQuadraticApprox::calculate_quadratic_diameters from
src/src/lib.rs lines 740-799: accumulate path diameters, then average them
into every dendrite node, flooring at minimum_diameter. -/
noncomputable def DendriteDiameterQuadraticApprox.calculate_quadratic_diameters
    (dd : DendriteDiameterQuadraticApprox) (instructions : List Instruction)
    (nodes : List Node) : List Node :=
  let accum := dd.accumulate instructions nodes
  (nodes.zip accum).map (fun p =>
    let node := p.1
    match (instructions.getD node.instruction_index default).morphology with
    | some morph =>
      if morph.extend_before_branch then node
      else
        let mean_diameter := p.2.2 / (p.2.1 : ℝ)
        { node with diameter := max morph.minimum_diameter mean_diameter }
    | none => node)

open Classical in
/-- create from src/src/lib.rs lines 581-694: validate, run every instruction
in order, then run the diameter solver.  A panic (failed validation or
overflow precondition) is modelled as none, as is fuel exhaustion of the
growth loop. -/
noncomputable def create (dd : DendriteDiameterQuadraticApprox) (fuel : ℕ)
    (instructions : List Instruction) : Option (List Node) :=
  if Instruction.check instructions ∧ instructions.length < 4294967295 ∧
      (instructions.map (fun i => i.carrier_points.length)).sum < 4294967295 then
    match run_instructions fuel instructions 0 ([], []) with
    | none => none
    | some acc => some (dd.calculate_quadratic_diameters instructions acc.1)
  else none

/-!  The thinning pass of CarrierPoints::generate_points
(src/src/carrier_points.rs lines 321-364).  The oversampled point cloud is
produced by rejection sampling with a thread-local RNG, so the pass is
modelled as a function of the oversampled points, the requested count and
the analytic volume of the region. -/

/-- The proximity threshold of the thinning pass: half the expected spacing
(volume / num_points) to the power one third
(src/src/carrier_points.rs lines 321-325). -/
noncomputable def thinning_minimum_distance (volume : ℝ) (num_points : ℕ) : ℝ :=
  let average_volume := volume / (num_points : ℝ)
  let average_distance := average_volume ^ ((1 : ℝ) / 3)
  0.5 * average_distance

open Classical in
/-- The neighbor collection of the thinning pass
(src/src/carrier_points.rs lines 329-336).  For every point the kd-tree is
queried with within_unsorted under the SquaredEuclidean metric and the
radius argument minimum_distance, so a pair (index, item) is collected
exactly when its squared distance is at most minimum_distance; pairs are
kept only when item < index and are emitted as (squared distance, index,
item). -/
noncomputable def neighbor_pairs (points : List Vec3) (minimum_distance : ℝ) :
    List (ℝ × ℕ × ℕ) :=
  (List.range points.length).flatMap (fun index =>
    (List.range points.length).filterMap (fun item =>
      let d2 := squared_distance (points.getD index default) (points.getD item default)
      if d2 ≤ minimum_distance ∧ item < index then some (d2, index, item) else none))

open Classical in
/-- The neighbor collection as the specification states it: a pair is
collected exactly when its Euclidean distance is at most the minimum
distance.  Stated for comparison with neighbor_pairs, following the spec
sentence about step 4 of generate_points. -/
noncomputable def claimed_neighbor_pairs (points : List Vec3) (minimum_distance : ℝ) :
    List (ℝ × ℕ × ℕ) :=
  (List.range points.length).flatMap (fun index =>
    (List.range points.length).filterMap (fun item =>
      let d2 := squared_distance (points.getD index default) (points.getD item default)
      if distance (points.getD index default) (points.getD item default) ≤ minimum_distance
          ∧ item < index then
        some (d2, index, item)
      else none))

/-- The discard walk of the thinning pass
(src/src/carrier_points.rs lines 340-350): walk the sorted pairs, stop once
num_discard points are discarded, skip pairs with an already-discarded
endpoint, otherwise discard the first endpoint of the pair. -/
def discard_extra : List (ℝ × ℕ × ℕ) → List ℕ → ℕ → List ℕ
  | [], discard, _ => discard
  | n :: rest, discard, num_discard =>
    if num_discard ≤ discard.length then discard
    else if n.2.1 ∈ discard ∨ n.2.2 ∈ discard then discard_extra rest discard num_discard
    else discard_extra rest (discard ++ [n.2.1]) num_discard

open Classical in
/-- The full thinning pass of generate_points
(src/src/carrier_points.rs lines 321-364), given the oversampled points. -/
noncomputable def generate_points_thinned (points : List Vec3) (num_points : ℕ)
    (volume : ℝ) : List Vec3 :=
  let minimum_distance := thinning_minimum_distance volume num_points
  let neighbors := (neighbor_pairs points minimum_distance).mergeSort
    (fun a b => decide (a.1 ≤ b.1))
  let num_discard := points.length - num_points
  let discard := discard_extra neighbors [] num_discard
  (((List.range points.length).filter (fun index => index ∉ discard)).map
    (fun index => points.getD index default)).take num_points

/-!  Definitions stating claim-side readings, for comparison with the code. -/

/-- The radius R exactly as claim C6 words it for the pop-time recheck:
extension_distance for a root parent, the maximum of extension_distance and
branch_distance for a childless non-root parent, branch_distance otherwise.
(This coincides with the enqueue-time radius of the code.) -/
noncomputable def claimed_pop_radius (morphology : Morphology) (parent_node : Node) : EReal :=
  if parent_node.is_root then morphology.extension_distance
  else if parent_node.num_children = 0 then
    max morphology.extension_distance morphology.branch_distance
  else morphology.branch_distance

/-- Lexicographic comparison of (branch_num, priority), smaller pairs pop
first according to claim C8. -/
def lex_le (a b : PotentialSegment) : Prop :=
  a.branch_num < b.branch_num ∨ (a.branch_num = b.branch_num ∧ a.priority ≤ b.priority)

/-- The morphology parameter domain table of the specification (section 3),
restricted to the fields the code has: balancing_factor ≥ 0, the two
distance limits strictly positive (possibly infinite), angles in [0, pi],
minimum_diameter > 0, taper ≥ 0. -/
def spec_morphology_in_range (m : Morphology) : Prop :=
  0 ≤ m.balancing_factor ∧
  (0 : EReal) < m.extension_distance ∧
  (0 : EReal) < m.branch_distance ∧
  (0 ≤ m.extension_angle ∧ m.extension_angle ≤ Real.pi) ∧
  (0 ≤ m.branch_angle ∧ m.branch_angle ≤ Real.pi) ∧
  0 < m.minimum_diameter ∧
  0 ≤ m.diameter_taper

/-- Structural well-formedness of a node array: roots have path length zero;
every non-root node points to an earlier node, its path length is the parent
path length plus the segment length, and its coordinates are one of the
carrier points of the instruction that grew it. -/
noncomputable def nodes_wf (instructions : List Instruction) (nodes : List Node) : Prop :=
  ∀ (i : ℕ) (n : Node), nodes[i]? = some n →
    (n.parent_index = none → n.path_length = 0) ∧
    (∀ p, n.parent_index = some p → p < i ∧ ∃ pn, nodes[p]? = some pn ∧
      n.path_length = pn.path_length + distance pn.coordinates n.coordinates ∧
      n.coordinates ∈ (instructions.getD n.instruction_index default).carrier_points)

/-- Every queued candidate references an existing parent node. -/
def queue_wf (queue : List PotentialSegment) (nodes : List Node) : Prop :=
  ∀ c ∈ queue, c.parent_index < nodes.length

/-- Every recorded section lies inside the node array. -/
def sections_wf (sections : List (ℕ × ℕ)) (nodes : List Node) : Prop :=
  ∀ se ∈ sections, se.2 ≤ nodes.length

/-- Bounded child counts for non-root nodes. -/
def nodes_branch_bound (mb : ℕ) (nodes : List Node) : Prop :=
  ∀ (i : ℕ) (n : Node), nodes[i]? = some n → n.parent_index ≠ none → n.num_children ≤ mb + 1

/-!  Concrete instruction programs used to settle the claims.  All of them
use a soma of diameter 10 at the origin followed by one dendrite
instruction rooted at it; they differ in the morphology limits and the
carrier points. -/

/-- A minimal valid diameter table: one dendrite length, one zero polynomial. -/
noncomputable def dd_test : DendriteDiameterQuadraticApprox := ⟨[1], [(0, 0, 0)]⟩

/-- The soma instruction shared by the concrete programs: diameter 10, one
carrier point at the origin. -/
noncomputable def soma10 : Instruction := ⟨none, some 10, [⟨0, 0, 0⟩], []⟩

/-- Dendrite morphology with generous limits: balancing factor 0, both
distance limits 1000, both angles pi, at most 1 branch, minimum diameter 1,
no taper. -/
noncomputable def m_far : Morphology :=
  ⟨0, ((1000 : ℝ) : EReal), Real.pi, ((1000 : ℝ) : EReal), Real.pi, false, 1, 1, 0⟩

/-- Dendrite morphology with both distance limits 5 (claim C2). -/
noncomputable def m_short : Morphology :=
  ⟨0, ((5 : ℝ) : EReal), Real.pi, ((5 : ℝ) : EReal), Real.pi, false, 1, 1, 0⟩

/-- Dendrite morphology allowing zero branches (claim C5). -/
noncomputable def m_nobranch : Morphology :=
  ⟨0, ((1000 : ℝ) : EReal), Real.pi, ((1000 : ℝ) : EReal), Real.pi, false, 0, 1, 0⟩

/-- Dendrite morphology with extension limit 5 and branch limit 50 (claim C6). -/
noncomputable def m_asym : Morphology :=
  ⟨0, ((5 : ℝ) : EReal), Real.pi, ((50 : ℝ) : EReal), Real.pi, false, 10, 1, 0⟩

/-- Dendrite morphology with extension limit 0: in range for the code
validation, out of range for the domain table of the specification. -/
noncomputable def m_zero_ext : Morphology :=
  ⟨0, ((0 : ℝ) : EReal), Real.pi, ((100 : ℝ) : EReal), Real.pi, false, 1, 1, 0⟩

/-- Dendrite instruction with one carrier point at [100, 0, 0], rooted at the
soma (the example of claim C1). -/
noncomputable def dend_far : Instruction := ⟨some m_far, none, [⟨100, 0, 0⟩], [0]⟩

/-- Dendrite instruction for claim C2: the carrier point is outside both
distance limits. -/
noncomputable def dend_short : Instruction := ⟨some m_short, none, [⟨100, 0, 0⟩], [0]⟩

/-- Dendrite instruction for claim C5: two collinear carrier points. -/
noncomputable def dend_chain : Instruction :=
  ⟨some m_nobranch, none, [⟨10, 0, 0⟩, ⟨20, 0, 0⟩], [0]⟩

/-- Dendrite instruction for claim C6: the second carrier point is 8 away
from the first, inside the branch limit 50, outside the extension limit 5. -/
noncomputable def dend_asym : Instruction :=
  ⟨some m_asym, none, [⟨4, 0, 0⟩, ⟨12, 0, 0⟩], [0]⟩

/-- Program for claims C1, C3 and C9. -/
noncomputable def instrs_far : List Instruction := [soma10, dend_far]

/-- Program for claim C2. -/
noncomputable def instrs_short : List Instruction := [soma10, dend_short]

/-- Program for claim C5. -/
noncomputable def instrs_chain : List Instruction := [soma10, dend_chain]

/-- Program for claim C6. -/
noncomputable def instrs_asym : List Instruction := [soma10, dend_asym]

/-- The root node the soma instruction of the concrete programs creates. -/
noncomputable def soma_root : Node := Node.new_root ⟨0, 0, 0⟩ 10 0

/-- An invalid instruction: neither a morphology nor a soma diameter. -/
noncomputable def instr_invalid : Instruction := ⟨none, none, [], []⟩

/-- A no-op neurite instruction whose morphology has extension_distance 0. -/
noncomputable def instr_zero_ext : Instruction := ⟨some m_zero_ext, none, [], []⟩

/-- Oversampled points for the thinning pass of claim C7: two points 3/10
apart on the x axis. -/
noncomputable def points_c7 : List Vec3 := [⟨0, 0, 0⟩, ⟨3 / 10, 0, 0⟩]

/-- Queue for the pop-order witness of claim C8. -/
noncomputable def seg_c8a : PotentialSegment := ⟨0, 5, 0, 0⟩

/-- Second queue element for the pop-order witness of claim C8. -/
noncomputable def seg_c8b : PotentialSegment := ⟨0, 3, 1, 0⟩

/-!  Helper lemmas. -/

theorem distance_eq_sqrt_squared_distance (a b : Vec3) :
    distance a b = Real.sqrt (squared_distance a b) := rfl

theorem sqrt_eval {x y : ℝ} (hy : 0 ≤ y) (h : y ^ 2 = x) : Real.sqrt x = y := by
  rw [← h]; exact Real.sqrt_sq hy

theorem distance_mk (a b c d e f : ℝ) :
    distance ⟨a, b, c⟩ ⟨d, e, f⟩ = Real.sqrt ((d - a) ^ 2 + (e - b) ^ 2 + (f - c) ^ 2) := rfl

theorem squared_distance_mk (a b c d e f : ℝ) :
    squared_distance ⟨a, b, c⟩ ⟨d, e, f⟩ = (d - a) ^ 2 + (e - b) ^ 2 + (f - c) ^ 2 := rfl

/-!  Claim C4: polynomial scaling in the dendrite-diameter solver. -/

/-- C4, code bug: the solver wired into create (src/src/lib.rs line 769)
scales the interpolated polynomial with term * dendrite_taper + minimum_diameter
applied to all three coefficients, so the minimum diameter is added three
times; the claim (and src/src/dendrite_diameter.rs lines 76-80, and the
spec) add it only to the constant coefficient.  In general the diameter the
running code accumulates at normalized distance t exceeds the claimed value
by offset * (t^2 + t); at the concrete input p = (1,1,1), taper = 1,
offset = 1, t = 1 the code yields 6 whereas the claim says 4. -/
theorem c4_offset_added_to_all_coefficients :
    (∀ (p : ℝ × ℝ × ℝ) (s o t : ℝ),
      eval_polynomial (scale_polynomial p s o) t =
        (p.1 * s * t ^ 2 + p.2.1 * s * t + (p.2.2 * s + o)) + o * (t ^ 2 + t)) ∧
    (∀ (p : ℝ × ℝ × ℝ) (s o t : ℝ),
      eval_polynomial (quadratic_approx_scale p s o) t =
        p.1 * s * t ^ 2 + p.2.1 * s * t + (p.2.2 * s + o)) ∧
    eval_polynomial (scale_polynomial (1, 1, 1) 1 1) 1 = 6 ∧
    (1 : ℝ) * 1 * 1 ^ 2 + 1 * 1 * 1 + (1 * 1 + 1) = 4 ∧
    ((6 : ℝ) ≠ 4) := by
  refine ⟨?_, ?_, ?_, ?_, ?_⟩
  · intro p s o t; simp [eval_polynomial, scale_polynomial]; ring
  · intro p s o t; simp [eval_polynomial, quadratic_approx_scale]
  · norm_num [eval_polynomial, scale_polynomial]
  · norm_num
  · norm_num

/-!  Claim C7: the thinning pass of generate_points. -/

theorem thinning_minimum_distance_eval : thinning_minimum_distance (1 / 64) 1 = 1 / 8 := by
  show 0.5 * (((1 : ℝ) / 64 / ((1 : ℕ) : ℝ)) ^ ((1 : ℝ) / 3)) = 1 / 8
  rw [show (1 : ℝ) / 64 / ((1 : ℕ) : ℝ) = ((1 : ℝ) / 4) ^ (3 : ℕ) by norm_num]
  rw [← Real.rpow_natCast ((1 : ℝ) / 4) 3, ← Real.rpow_mul (by norm_num)]
  rw [show ((3 : ℕ) : ℝ) * ((1 : ℝ) / 3) = 1 by push_cast; ring, Real.rpow_one]
  norm_num

theorem neighbor_pairs_eval : neighbor_pairs points_c7 (1 / 8) = [(9 / 100, 1, 0)] := by
  unfold neighbor_pairs points_c7
  simp only [List.length_cons, List.length_nil, show List.range 2 = [0, 1] from by decide,
    List.flatMap_cons, List.flatMap_nil, List.filterMap_cons, List.filterMap_nil,
    List.getD_cons_zero, List.getD_cons_succ]
  norm_num [squared_distance, sub]

theorem claimed_neighbor_pairs_eval : claimed_neighbor_pairs points_c7 (1 / 8) = [] := by
  unfold claimed_neighbor_pairs points_c7
  have hd : distance (⟨3 / 10, 0, 0⟩ : Vec3) ⟨0, 0, 0⟩ = 3 / 10 := by
    rw [distance_mk]; exact sqrt_eval (by norm_num) (by norm_num)
  simp only [List.length_cons, List.length_nil, show List.range 2 = [0, 1] from by decide,
    List.flatMap_cons, List.flatMap_nil, List.filterMap_cons, List.filterMap_nil,
    List.getD_cons_zero, List.getD_cons_succ]
  norm_num [hd, squared_distance, sub]

/-- C7, code bug: the pair-collection step of the thinning pass passes the
unsquared threshold minimum_distance as the radius of a kd-tree query that
measures squared Euclidean distance (src/src/carrier_points.rs line 331;
the analogous query in src/src/lib.rs line 501 squares its radius first).
With volume 1/64 and num_points 1 the threshold is 1/8, and for oversampled
points [0,0,0] and [3/10,0,0] the code collects the pair although its
Euclidean distance 3/10 exceeds 1/8; the collection the claim describes is
empty. -/
theorem c7_thinning_radius_not_squared :
    thinning_minimum_distance (1 / 64) 1 = 1 / 8 ∧
    neighbor_pairs points_c7 (1 / 8) = [(9 / 100, 1, 0)] ∧
    distance (points_c7.getD 1 default) (points_c7.getD 0 default) = 3 / 10 ∧
    ¬((3 : ℝ) / 10 ≤ 1 / 8) ∧
    claimed_neighbor_pairs points_c7 (1 / 8) = [] := by
  refine ⟨thinning_minimum_distance_eval, neighbor_pairs_eval, ?_, by norm_num,
    claimed_neighbor_pairs_eval⟩
  show distance (⟨3 / 10, 0, 0⟩ : Vec3) ⟨0, 0, 0⟩ = 3 / 10
  rw [distance_mk]; exact sqrt_eval (by norm_num) (by norm_num)

/-!  Candidate ordering: the reversed comparison pops the lexicographically
smallest (branch_num, priority) pair. -/

theorem cmp_lt_iff (a b : PotentialSegment) :
    a.cmp b = Ordering.lt ↔
      b.branch_num < a.branch_num ∨
        (b.branch_num = a.branch_num ∧ b.priority < a.priority) := by
  unfold PotentialSegment.cmp nat_cmp total_cmp
  rcases lt_trichotomy a.branch_num b.branch_num with h | h | h
  · rw [if_pos h]
    simp only [Ordering.then, Ordering.swap]
    constructor
    · intro hc; exact absurd hc (by simp)
    · rintro (h2 | ⟨h2, _⟩) <;> omega
  · rw [if_neg (by omega), if_neg (by omega)]
    simp only [Ordering.then]
    rcases lt_trichotomy a.priority b.priority with hp | hp | hp
    · rw [if_pos hp]
      simp only [Ordering.swap]
      constructor
      · intro hc; exact absurd hc (by simp)
      · rintro (h2 | ⟨_, h2⟩)
        · omega
        · linarith
    · rw [if_neg (by linarith), if_neg (by linarith)]
      simp only [Ordering.swap]
      constructor
      · intro hc; exact absurd hc (by simp)
      · rintro (h2 | ⟨_, h2⟩)
        · omega
        · linarith
    · rw [if_neg (by linarith), if_pos hp]
      simp only [Ordering.swap]
      exact ⟨fun _ => Or.inr ⟨h.symm, hp⟩, fun _ => by simp⟩
  · rw [if_neg (by omega), if_pos h]
    simp only [Ordering.then, Ordering.swap]
    exact ⟨fun _ => Or.inl h, fun _ => by simp⟩

theorem not_cmp_lt_iff (a b : PotentialSegment) :
    ¬(a.cmp b = Ordering.lt) ↔ lex_le a b := by
  rw [cmp_lt_iff]
  unfold lex_le
  constructor
  · intro h
    rcases lt_trichotomy a.branch_num b.branch_num with h1 | h1 | h1
    · exact Or.inl h1
    · refine Or.inr ⟨h1, ?_⟩
      by_contra h2
      exact h (Or.inr ⟨h1.symm, not_le.mp h2⟩)
    · exact absurd (Or.inl h1) h
  · rintro (h1 | ⟨h1, h2⟩) <;> rintro (h3 | ⟨h3, h4⟩) <;> first | omega | linarith

theorem lex_le_refl (a : PotentialSegment) : lex_le a a := Or.inr ⟨rfl, le_refl _⟩

theorem lex_le_trans {a b c : PotentialSegment} (h1 : lex_le a b) (h2 : lex_le b c) :
    lex_le a c := by
  rcases h1 with h1 | ⟨h1, h1p⟩ <;> rcases h2 with h2 | ⟨h2, h2p⟩
  · exact Or.inl (h1.trans h2)
  · exact Or.inl (h2 ▸ h1)
  · exact Or.inl (h1 ▸ h2)
  · exact Or.inr ⟨h1.trans h2, h1p.trans h2p⟩

theorem pop_best_eq_none_iff (q : List PotentialSegment) :
    pop_best q = none ↔ q = [] := by
  cases q with
  | nil => simp [pop_best]
  | cons x xs =>
    simp only [pop_best]
    constructor
    · intro h
      cases hx : pop_best xs with
      | none =>
        rw [hx] at h
        replace h : some (x, ([] : List PotentialSegment)) = none := h
        exact absurd h (by simp)
      | some p =>
        obtain ⟨y, ys⟩ := p
        rw [hx] at h
        replace h : (if x.cmp y = Ordering.lt then some (y, x :: ys) else some (x, xs)) = none := h
        split_ifs at h <;> simp at h
    · intro h; exact absurd h (by simp)

theorem pop_best_min {q : List PotentialSegment} {c : PotentialSegment}
    {rest : List PotentialSegment} (h : pop_best q = some (c, rest)) :
    ∀ a ∈ q, lex_le c a := by
  induction q generalizing c rest with
  | nil => simp [pop_best] at h
  | cons x xs ih =>
    simp only [pop_best] at h
    cases hx : pop_best xs with
    | none =>
      rw [hx] at h
      replace h : some (x, ([] : List PotentialSegment)) = some (c, rest) := h
      obtain ⟨rfl, rfl⟩ : x = c ∧ ([] : List PotentialSegment) = rest := by
        cases h; exact ⟨rfl, rfl⟩
      have hnil : xs = [] := (pop_best_eq_none_iff xs).mp hx
      subst hnil
      intro a ha
      simp only [List.mem_singleton] at ha
      subst ha
      exact lex_le_refl _
    | some p =>
      obtain ⟨y, ys⟩ := p
      rw [hx] at h
      replace h : (if x.cmp y = Ordering.lt then some (y, x :: ys) else some (x, xs)) =
        some (c, rest) := h
      by_cases hcmp : x.cmp y = Ordering.lt
      · rw [if_pos hcmp] at h
        obtain ⟨rfl, rfl⟩ : y = c ∧ x :: ys = rest := by cases h; exact ⟨rfl, rfl⟩
        intro a ha
        rcases List.mem_cons.mp ha with rfl | ha
        · rcases (cmp_lt_iff a y).mp hcmp with h1 | ⟨h1, h2⟩
          · exact Or.inl h1
          · exact Or.inr ⟨h1, le_of_lt h2⟩
        · exact ih hx a ha
      · rw [if_neg hcmp] at h
        obtain ⟨rfl, rfl⟩ : x = c ∧ xs = rest := by cases h; exact ⟨rfl, rfl⟩
        intro a ha
        rcases List.mem_cons.mp ha with rfl | ha
        · exact lex_le_refl _
        · exact lex_le_trans ((not_cmp_lt_iff _ y).mp hcmp) (ih hx a ha)

/-- Every candidate produced by consider_all_potential_segments carries the
parent it was generated for, the branch number prescribed by
extend_before_branch, a carrier index inside the carrier array, and the
priority of the segment from that parent to that carrier point. -/
theorem mem_consider_all {morphology : Morphology} {carrier_points : List Vec3}
    {occupied : List Bool} {parent_index : ℕ} {parent_node : Node}
    {c : PotentialSegment}
    (h : c ∈ consider_all_potential_segments morphology carrier_points occupied
      parent_index parent_node) :
    c.parent_index = parent_index ∧
    c.branch_num = (if morphology.extend_before_branch then parent_node.num_children else 0) ∧
    c.carrier_index < carrier_points.length ∧
    c.priority = priority morphology parent_node
      (distance parent_node.coordinates (carrier_points.getD c.carrier_index default)) := by
  unfold consider_all_potential_segments at h
  simp only [] at h
  by_cases h1 : parent_node.is_segment ∧ parent_node.num_children > morphology.maximum_branches
  · rw [if_pos h1] at h
    simp at h
  · rw [if_neg h1] at h
    by_cases hfin : enqueue_maximum_distance morphology parent_node ≠ ⊤ ∧
        enqueue_maximum_distance morphology parent_node ≠ ⊥
    · rw [if_pos hfin, List.mem_filterMap] at h
      obtain ⟨a, ha, hfa⟩ := h
      by_cases hd : squared_distance parent_node.coordinates (carrier_points.getD a default) ≤
          (enqueue_maximum_distance morphology parent_node).toReal ^ 2
      · rw [if_pos hd] at hfa
        by_cases ho : occupied.getD a false = true
        · rw [if_pos ho] at hfa; cases hfa
        · rw [if_neg ho] at hfa
          cases hfa
          refine ⟨rfl, rfl, List.mem_range.mp ha, ?_⟩
          rw [distance_eq_sqrt_squared_distance]
      · rw [if_neg hd] at hfa; cases hfa
    · rw [if_neg hfin, List.mem_filterMap] at h
      obtain ⟨a, ha, hfa⟩ := h
      by_cases ho : occupied.getD a false = true
      · rw [if_pos ho] at hfa; cases hfa
      · rw [if_neg ho] at hfa
        cases hfa
        exact ⟨rfl, rfl, List.mem_range.mp ha, rfl⟩

/-!  Claim C8: priority formula and pop order. -/

/-- C8, confirmed: candidates are enqueued with priority
segment_length + balancing_factor * (parent.path_length + segment_length);
the queue pops a candidate with the lexicographically smallest
(branch_num, priority) pair; the stored branch_num is the parent child count
when extend_before_branch is set and zero otherwise. -/
theorem c8_priority_and_pop_order :
    (∀ (morphology : Morphology) (parent_node : Node) (segment_length : ℝ),
      priority morphology parent_node segment_length =
        segment_length + morphology.balancing_factor *
          (parent_node.path_length + segment_length)) ∧
    (∀ (q : List PotentialSegment) (c : PotentialSegment) (rest : List PotentialSegment),
      pop_best q = some (c, rest) → ∀ a ∈ q, lex_le c a) ∧
    (∀ (morphology : Morphology) (carrier_points : List Vec3) (occupied : List Bool)
      (parent_index : ℕ) (parent_node : Node) (c : PotentialSegment),
      c ∈ consider_all_potential_segments morphology carrier_points occupied
        parent_index parent_node →
      c.branch_num =
        (if morphology.extend_before_branch then parent_node.num_children else 0)) := by
  refine ⟨?_, ?_, ?_⟩
  · intro m p s; unfold priority; ring
  · intro q c rest h; exact pop_best_min h
  · intro m cps occ pi pn c h; exact (mem_consider_all h).2.1

/-- Witness for C8 at a concrete queue: of the two candidates with equal
branch number and priorities 5 and 3, the one with priority 3 pops first. -/
theorem c8_witness :
    pop_best [seg_c8a, seg_c8b] = some (seg_c8b, [seg_c8a]) ∧ lex_le seg_c8b seg_c8a := by
  have hstep : pop_best [seg_c8a, seg_c8b] =
      match pop_best [seg_c8b] with
      | none => some (seg_c8a, [])
      | some (y, ys) =>
        if seg_c8a.cmp y = Ordering.lt then some (y, seg_c8a :: ys)
        else some (seg_c8a, [seg_c8b]) := rfl
  have hsingle : pop_best [seg_c8b] = some (seg_c8b, []) := rfl
  have hcmp : seg_c8a.cmp seg_c8b = Ordering.lt := by
    rw [cmp_lt_iff]
    exact Or.inr ⟨rfl, by norm_num [seg_c8a, seg_c8b]⟩
  have hpop : pop_best [seg_c8a, seg_c8b] = some (seg_c8b, [seg_c8a]) := by
    rw [hstep, hsingle]
    show (if seg_c8a.cmp seg_c8b = Ordering.lt then some (seg_c8b, [seg_c8a])
      else some (seg_c8a, [seg_c8b])) = some (seg_c8b, [seg_c8a])
    rw [if_pos hcmp]
  exact ⟨hpop, c8_priority_and_pop_order.2.1 _ _ _ hpop seg_c8a (by simp)⟩

/-!  Unfolding lemmas for the growth loop. -/

theorem grow_step_of_pop_none {morphology : Morphology} {carrier_points : List Vec3}
    {instr_index : ℕ} {s : GrowState} (h : pop_best s.queue = none) :
    grow_step morphology carrier_points instr_index s = none := by
  unfold grow_step
  rw [h]

theorem grow_step_of_pop_some {morphology : Morphology} {carrier_points : List Vec3}
    {instr_index : ℕ} {s : GrowState} {seg : PotentialSegment}
    {rest : List PotentialSegment} (h : pop_best s.queue = some (seg, rest)) :
    grow_step morphology carrier_points instr_index s =
      some (process_segment morphology carrier_points instr_index s.nodes s.occupied seg rest) := by
  unfold grow_step
  rw [h]

theorem grow_loop_done {morphology : Morphology} {carrier_points : List Vec3}
    {instr_index fuel : ℕ} {s : GrowState} (h : pop_best s.queue = none) :
    grow_loop morphology carrier_points instr_index fuel s = some s := by
  cases fuel with
  | zero =>
    show (match pop_best s.queue with
      | none => some s
      | some _ => none) = some s
    rw [h]
  | succ fuel =>
    show (match grow_step morphology carrier_points instr_index s with
      | none => some s
      | some s2 => grow_loop morphology carrier_points instr_index fuel s2) = some s
    rw [grow_step_of_pop_none h]

theorem grow_loop_step {morphology : Morphology} {carrier_points : List Vec3}
    {instr_index fuel : ℕ} {s s2 : GrowState}
    (h : grow_step morphology carrier_points instr_index s = some s2) :
    grow_loop morphology carrier_points instr_index (fuel + 1) s =
      grow_loop morphology carrier_points instr_index fuel s2 := by
  show (match grow_step morphology carrier_points instr_index s with
    | none => some s
    | some s2 => grow_loop morphology carrier_points instr_index fuel s2) = _
  rw [h]

theorem grow_loop_step_fuel {morphology : Morphology} {carrier_points : List Vec3}
    {instr_index fuel k : ℕ} {s s2 : GrowState} (hf : fuel = k + 1)
    (h : grow_step morphology carrier_points instr_index s = some s2) :
    grow_loop morphology carrier_points instr_index fuel s =
      grow_loop morphology carrier_points instr_index k s2 := by
  subst hf
  exact grow_loop_step h

/-!  Characterization of the loop body on the four paths the concrete runs
take: stale candidate, distance rejection, and commit. -/

theorem process_segment_skip_occupied {morphology : Morphology} {carrier_points : List Vec3}
    {instr_index : ℕ} {nodes : List Node} {occupied : List Bool}
    {seg : PotentialSegment} {rest : List PotentialSegment}
    (h : occupied.getD seg.carrier_index false = true) :
    process_segment morphology carrier_points instr_index nodes occupied seg rest =
      ⟨nodes, occupied, rest⟩ := by
  unfold process_segment
  rw [if_pos h]

theorem process_segment_skip_distance {morphology : Morphology} {carrier_points : List Vec3}
    {instr_index : ℕ} {nodes : List Node} {occupied : List Bool}
    {seg : PotentialSegment} {rest : List PotentialSegment}
    (h1 : occupied.getD seg.carrier_index false = false)
    (h2 : ¬((nodes.getD seg.parent_index default).is_segment ∧
      (nodes.getD seg.parent_index default).num_children > morphology.maximum_branches))
    (h3 : ((distance (nodes.getD seg.parent_index default).coordinates
        (carrier_points.getD seg.carrier_index default) : ℝ) : EReal) >
      pop_maximum_distance morphology (nodes.getD seg.parent_index default)) :
    process_segment morphology carrier_points instr_index nodes occupied seg rest =
      ⟨nodes, occupied, rest⟩ := by
  unfold process_segment
  rw [if_neg (by rw [h1]; exact Bool.false_ne_true)]
  simp only []
  rw [if_neg h2, if_pos h3]

theorem process_segment_commit {morphology : Morphology} {carrier_points : List Vec3}
    {instr_index : ℕ} {nodes : List Node} {occupied : List Bool}
    {seg : PotentialSegment} {rest : List PotentialSegment}
    (h1 : occupied.getD seg.carrier_index false = false)
    (h2 : ¬((nodes.getD seg.parent_index default).is_segment ∧
      (nodes.getD seg.parent_index default).num_children > morphology.maximum_branches))
    (h3 : ¬(((distance (nodes.getD seg.parent_index default).coordinates
        (carrier_points.getD seg.carrier_index default) : ℝ) : EReal) >
      pop_maximum_distance morphology (nodes.getD seg.parent_index default)))
    (h4 : ¬((if (nodes.getD seg.parent_index default).num_children = 0 then
        morphology.extension_angle else morphology.branch_angle) <
        Real.pi - f64_epsilon ∧
      (nodes.getD seg.parent_index default).is_segment ∧
      angle (sub (nodes.getD ((nodes.getD seg.parent_index default).parent_index.getD 0)
          default).coordinates
          (nodes.getD seg.parent_index default).coordinates)
        (sub (nodes.getD seg.parent_index default).coordinates
          (carrier_points.getD seg.carrier_index default)) >
        (if (nodes.getD seg.parent_index default).num_children = 0 then
          morphology.extension_angle else morphology.branch_angle)))
    (h5 : ¬(morphology.extend_before_branch ∧
      seg.branch_num < (nodes.getD seg.parent_index default).num_children)) :
    process_segment morphology carrier_points instr_index nodes occupied seg rest =
      ⟨(nodes ++ [Node.new_segment (carrier_points.getD seg.carrier_index default)
            morphology.minimum_diameter seg.parent_index instr_index
            ((nodes.getD seg.parent_index default).path_length +
              distance (nodes.getD seg.parent_index default).coordinates
                (carrier_points.getD seg.carrier_index default))]).set seg.parent_index
          { nodes.getD seg.parent_index default with
            num_children := (nodes.getD seg.parent_index default).num_children + 1 },
        occupied.set seg.carrier_index true,
        rest ++ consider_all_potential_segments morphology carrier_points
          (occupied.set seg.carrier_index true) nodes.length
          (((nodes ++ [Node.new_segment (carrier_points.getD seg.carrier_index default)
              morphology.minimum_diameter seg.parent_index instr_index
              ((nodes.getD seg.parent_index default).path_length +
                distance (nodes.getD seg.parent_index default).coordinates
                  (carrier_points.getD seg.carrier_index default))]).set seg.parent_index
            { nodes.getD seg.parent_index default with
              num_children := (nodes.getD seg.parent_index default).num_children + 1 }).getD
            nodes.length default)⟩ := by
  unfold process_segment
  rw [if_neg (by rw [h1]; exact Bool.false_ne_true)]
  simp only []
  rw [if_neg h2, if_neg h3, if_neg h4, if_neg h5]

/-- A parent whose carrier points are all used enqueues nothing. -/
theorem consider_all_occupied {morphology : Morphology} {carrier_points : List Vec3}
    {occupied : List Bool} {parent_index : ℕ} {parent_node : Node}
    (h : ∀ ci < carrier_points.length, occupied.getD ci false = true) :
    consider_all_potential_segments morphology carrier_points occupied
      parent_index parent_node = [] := by
  unfold consider_all_potential_segments
  simp only []
  split_ifs <;>
    first
      | rfl
      | (rw [List.filterMap_eq_nil_iff]
         intro a ha
         rw [h a (List.mem_range.mp ha)]
         simp)

theorem pi_angle_guard : ¬(Real.pi < Real.pi - f64_epsilon) :=
  not_lt.mpr (sub_le_self _ (by unfold f64_epsilon; positivity))

/-!  Concrete run: the program instrs_far (claims C1, C3, C9). -/

theorem run1_grow :
    grow_loop m_far [⟨100, 0, 0⟩] 1 10 ⟨[soma_root], [false], [⟨0, 100, 0, 0⟩]⟩ =
      some ⟨[⟨⟨0, 0, 0⟩, 10, none, 0, 1, 0⟩, ⟨⟨100, 0, 0⟩, 1, some 0, 1, 0, 100⟩],
        [true], []⟩ := by
  have hd1 : distance soma_root.coordinates ⟨100, 0, 0⟩ = 100 := by
    show distance (⟨0, 0, 0⟩ : Vec3) ⟨100, 0, 0⟩ = 100
    rw [distance_mk]; exact sqrt_eval (by norm_num) (by norm_num)
  have h1 : ([false] : List Bool).getD 0 false = false := rfl
  have h2 : ¬(soma_root.is_segment ∧ soma_root.num_children > m_far.maximum_branches) := by
    simp [soma_root, Node.new_root, Node.is_segment]
  have h3 : ¬(((distance soma_root.coordinates ⟨100, 0, 0⟩ : ℝ) : EReal) >
      pop_maximum_distance m_far soma_root) := by
    have hpm : pop_maximum_distance m_far soma_root = ((1000 : ℝ) : EReal) := by
      simp [pop_maximum_distance, soma_root, Node.new_root, Node.is_root, m_far]
    rw [hpm, hd1, gt_iff_lt, EReal.coe_lt_coe_iff]
    norm_num
  have h4 : ¬((if soma_root.num_children = 0 then m_far.extension_angle
        else m_far.branch_angle) < Real.pi - f64_epsilon ∧
      soma_root.is_segment ∧
      angle (sub (([soma_root] : List Node).getD (soma_root.parent_index.getD 0)
          default).coordinates soma_root.coordinates)
        (sub soma_root.coordinates (⟨100, 0, 0⟩ : Vec3)) >
        (if soma_root.num_children = 0 then m_far.extension_angle
          else m_far.branch_angle)) := by
    intro hc
    exact pi_angle_guard hc.1
  have h5 : ¬(m_far.extend_before_branch ∧
      (⟨0, 100, 0, 0⟩ : PotentialSegment).branch_num < soma_root.num_children) := by
    simp [m_far]
  have hocc : ∀ ci < ([⟨100, 0, 0⟩] : List Vec3).length,
      ([true] : List Bool).getD ci false = true := by
    intro ci hci
    simp only [List.length_cons, List.length_nil] at hci
    interval_cases ci
    rfl
  have hd1b : distance (⟨0, 0, 0⟩ : Vec3) ⟨100, 0, 0⟩ = 100 := hd1
  have hcommit : process_segment m_far [⟨100, 0, 0⟩] 1 [soma_root] [false] ⟨0, 100, 0, 0⟩ [] =
      ⟨[⟨⟨0, 0, 0⟩, 10, none, 0, 1, 0⟩, ⟨⟨100, 0, 0⟩, 1, some 0, 1, 0, 100⟩],
        [true], []⟩ := by
    rw [@process_segment_commit m_far [⟨100, 0, 0⟩] 1 [soma_root] [false] ⟨0, 100, 0, 0⟩ []
      h1 h2 h3 h4 h5]
    norm_num [soma_root, Node.new_root, Node.new_segment, hd1b, List.getD_cons_zero,
      List.getD_cons_succ, List.set_cons_zero, List.set_cons_succ, List.cons_append,
      List.nil_append, m_far]
    exact consider_all_occupied hocc
  have hgs : grow_step m_far [⟨100, 0, 0⟩] 1 ⟨[soma_root], [false], [⟨0, 100, 0, 0⟩]⟩ =
      some (process_segment m_far [⟨100, 0, 0⟩] 1 [soma_root] [false] ⟨0, 100, 0, 0⟩ []) :=
    @grow_step_of_pop_some m_far [⟨100, 0, 0⟩] 1 ⟨[soma_root], [false], [⟨0, 100, 0, 0⟩]⟩
      ⟨0, 100, 0, 0⟩ [] rfl
  rw [show (10 : ℕ) = 9 + 1 from rfl, grow_loop_step hgs, hcommit]
  exact grow_loop_done rfl

theorem run1_consider_root :
    consider_all_potential_segments m_far [⟨100, 0, 0⟩] [false] 0 soma_root =
      [⟨0, 100, 0, 0⟩] := by
  have hsq : Real.sqrt 10000 = 100 := sqrt_eval (by norm_num) (by norm_num)
  unfold consider_all_potential_segments
  simp only []
  rw [if_neg (show ¬(soma_root.is_segment ∧ soma_root.num_children > m_far.maximum_branches)
    from by simp [soma_root, Node.new_root, Node.is_segment])]
  rw [show enqueue_maximum_distance m_far soma_root = ((1000 : ℝ) : EReal) from by
    simp [enqueue_maximum_distance, soma_root, Node.new_root, Node.is_root, m_far]]
  rw [if_pos ⟨EReal.coe_ne_top 1000, EReal.coe_ne_bot 1000⟩]
  simp only [List.length_cons, List.length_nil, show List.range 1 = [0] from by decide,
    List.filterMap_cons, List.filterMap_nil, List.getD_cons_zero]
  norm_num [squared_distance, sub, soma_root, Node.new_root, EReal.toReal_coe, priority,
    m_far, hsq]

theorem run1_seed :
    seed_queue m_far dend_far [soma_root] [(0, 1)] = [⟨0, 100, 0, 0⟩] := by
  unfold seed_queue dend_far
  simp only [List.flatMap_cons, List.flatMap_nil, List.getD_cons_zero,
    List.length_cons, List.length_nil, List.replicate_one,
    show List.range' 0 1 = [0] from by decide, List.append_nil]
  exact run1_consider_root

theorem run1_instr0 : run_instruction 10 0 soma10 [] [] = some ([soma_root], [(0, 1)]) := rfl

theorem run1_instr1 :
    run_instruction 10 1 dend_far [soma_root] [(0, 1)] =
      some ([⟨⟨0, 0, 0⟩, 10, none, 0, 1, 0⟩, ⟨⟨100, 0, 0⟩, 1, some 0, 1, 0, 100⟩],
        [(0, 1), (1, 2)]) := by
  show (match grow_loop m_far [⟨100, 0, 0⟩] 1 10
      ⟨[soma_root], [false], seed_queue m_far dend_far [soma_root] [(0, 1)]⟩ with
    | none => none
    | some s => some (s.nodes, [(0, 1), (1, s.nodes.length)])) = _
  rw [run1_seed, run1_grow]
  rfl

theorem run1_instrs :
    run_instructions 10 instrs_far 0 ([], []) =
      some ([⟨⟨0, 0, 0⟩, 10, none, 0, 1, 0⟩, ⟨⟨100, 0, 0⟩, 1, some 0, 1, 0, 100⟩],
        [(0, 1), (1, 2)]) := by
  show (match run_instruction 10 0 soma10 [] [] with
    | none => none
    | some acc2 => run_instructions 10 [dend_far] 1 acc2) = _
  rw [run1_instr0]
  show (match run_instruction 10 1 dend_far [soma_root] [(0, 1)] with
    | none => none
    | some acc2 => run_instructions 10 [] 2 acc2) = _
  rw [run1_instr1]
  rfl

theorem ereal_coe_nonneg_of {x : ℝ} (h : 0 ≤ x) : (0 : EReal) ≤ (x : EReal) :=
  EReal.coe_nonneg.mpr h

theorem run1_check : Instruction.check instrs_far := by
  intro i instr h
  rcases i with _ | _ | n
  · simp only [instrs_far, List.get?_cons_zero] at h
    cases h
    exact ⟨rfl, 10, rfl, by norm_num⟩
  · simp only [instrs_far, List.get?_cons_succ, List.get?_cons_zero] at h
    cases h
    refine ⟨⟨le_refl 0, ereal_coe_nonneg_of (by norm_num), ereal_coe_nonneg_of (by norm_num),
      ⟨Real.pi_pos.le, le_refl _⟩, ⟨Real.pi_pos.le, le_refl _⟩, by norm_num [m_far],
      le_refl 0⟩, ?_, rfl⟩
    intro r hr
    simp only [dend_far] at hr
    simp at hr
    omega
  · simp only [instrs_far, List.get?_cons_succ] at h
    exact absurd h (by simp)

theorem interp_points_single_gt {q : ℝ} (h : 1 < q) : interp_points [1] q = (0, none) := by
  unfold interp_points
  simp only [count_lt, h, if_true]
  norm_num

theorem run1_walk :
    path_walk [⟨⟨0, 0, 0⟩, 10, none, 0, 1, 0⟩, ⟨⟨100, 0, 0⟩, 1, some 0, 1, 0, 100⟩]
      (1, 1, 1) (1 / 100) 2 1 [(0, 0), (0, 0)] = [(1, 1), (1, 3)] := by
  show [((0 : ℕ) + 1, (0 : ℝ) + eval_polynomial (1, 1, 1) (0 * (1 / 100))),
    ((0 : ℕ) + 1, (0 : ℝ) + eval_polynomial (1, 1, 1) (100 * (1 / 100)))] = [(1, 1), (1, 3)]
  norm_num [eval_polynomial]

theorem run1_accumulate :
    DendriteDiameterQuadraticApprox.accumulate dd_test instrs_far
      [⟨⟨0, 0, 0⟩, 10, none, 0, 1, 0⟩, ⟨⟨100, 0, 0⟩, 1, some 0, 1, 0, 100⟩] =
      [(1, 1), (1, 3)] := by
  unfold DendriteDiameterQuadraticApprox.accumulate
  simp only [List.length_cons, List.length_nil, show List.range 2 = [0, 1] from by decide,
    List.foldl_cons, List.foldl_nil, List.getD_cons_zero, List.getD_cons_succ,
    show List.replicate 2 ((0 : ℕ), (0 : ℝ)) = [(0, 0), (0, 0)] from rfl]
  rw [if_neg (show ¬Node.is_terminal ⟨⟨0, 0, 0⟩, 10, none, 0, 1, 0⟩ from by
    simp [Node.is_terminal])]
  rw [if_pos (show Node.is_terminal ⟨⟨100, 0, 0⟩, 1, some 0, 1, 0, 100⟩ from rfl)]
  simp only [instrs_far, dend_far, List.getD_cons_succ, List.getD_cons_zero]
  simp only [dd_test]
  rw [interp_points_single_gt (by norm_num : (1 : ℝ) < 100)]
  simp only [List.getD_cons_zero]
  norm_num [scale_polynomial, m_far]
  exact run1_walk

theorem run1_solver :
    DendriteDiameterQuadraticApprox.calculate_quadratic_diameters dd_test instrs_far
      [⟨⟨0, 0, 0⟩, 10, none, 0, 1, 0⟩, ⟨⟨100, 0, 0⟩, 1, some 0, 1, 0, 100⟩] =
      [⟨⟨0, 0, 0⟩, 10, none, 0, 1, 0⟩, ⟨⟨100, 0, 0⟩, 3, some 0, 1, 0, 100⟩] := by
  unfold DendriteDiameterQuadraticApprox.calculate_quadratic_diameters
  rw [run1_accumulate]
  simp only [List.zip_cons_cons, List.zip_nil_right, List.map_cons, List.map_nil,
    instrs_far, dend_far, soma10, List.getD_cons_zero, List.getD_cons_succ]
  norm_num [m_far]

theorem create_far_eval :
    create dd_test 10 instrs_far =
      some [⟨⟨0, 0, 0⟩, 10, none, 0, 1, 0⟩, ⟨⟨100, 0, 0⟩, 3, some 0, 1, 0, 100⟩] := by
  unfold create
  rw [if_pos ⟨run1_check, by norm_num [instrs_far, soma10, dend_far],
    by norm_num [instrs_far, soma10, dend_far]⟩]
  rw [run1_instrs]
  show some (DendriteDiameterQuadraticApprox.calculate_quadratic_diameters dd_test instrs_far
    [⟨⟨0, 0, 0⟩, 10, none, 0, 1, 0⟩, ⟨⟨100, 0, 0⟩, 1, some 0, 1, 0, 100⟩]) = _
  rw [run1_solver]

/-!  Shared validation lemmas for the concrete programs. -/

theorem simple_params (e b : ℝ) (he : 0 ≤ e) (hb : 0 ≤ b) (mb : ℕ) :
    Morphology.check_params ⟨0, (e : EReal), Real.pi, (b : EReal), Real.pi, false, mb, 1, 0⟩ :=
  ⟨le_refl 0, ereal_coe_nonneg_of he, ereal_coe_nonneg_of hb, ⟨Real.pi_pos.le, le_refl _⟩,
    ⟨Real.pi_pos.le, le_refl _⟩, by norm_num, le_refl 0⟩

theorem check_soma_dend {m : Morphology} {cps : List Vec3} (hm : m.check_params) :
    Instruction.check [soma10, ⟨some m, none, cps, [0]⟩] := by
  intro i instr h
  rcases i with _ | _ | n
  · simp only [List.get?_cons_zero] at h
    cases h
    exact ⟨rfl, 10, rfl, by norm_num⟩
  · simp only [List.get?_cons_succ, List.get?_cons_zero] at h
    cases h
    refine ⟨hm, ?_, rfl⟩
    intro r hr
    simp at hr
    omega
  · simp only [List.get?_cons_succ] at h
    exact absurd h (by simp)

/-!  Concrete run: the program instrs_short (claim C2).  The only carrier
point is outside both distance limits, so the seed queue is empty and the
dendrite instruction grows nothing. -/

theorem run2_consider_root :
    consider_all_potential_segments m_short [⟨100, 0, 0⟩] [false] 0 soma_root = [] := by
  unfold consider_all_potential_segments
  simp only []
  rw [if_neg (show ¬(soma_root.is_segment ∧ soma_root.num_children > m_short.maximum_branches)
    from by simp [soma_root, Node.new_root, Node.is_segment])]
  rw [show enqueue_maximum_distance m_short soma_root = ((5 : ℝ) : EReal) from by
    simp [enqueue_maximum_distance, soma_root, Node.new_root, Node.is_root, m_short]]
  rw [if_pos ⟨EReal.coe_ne_top 5, EReal.coe_ne_bot 5⟩]
  simp only [List.length_cons, List.length_nil, show List.range 1 = [0] from by decide,
    List.filterMap_cons, List.filterMap_nil, List.getD_cons_zero]
  norm_num [squared_distance, sub, soma_root, Node.new_root, EReal.toReal_coe]

theorem run2_seed :
    seed_queue m_short dend_short [soma_root] [(0, 1)] = [] := by
  unfold seed_queue dend_short
  simp only [List.flatMap_cons, List.flatMap_nil, List.getD_cons_zero,
    List.length_cons, List.length_nil, List.replicate_one,
    show List.range' 0 1 = [0] from by decide, List.append_nil]
  exact run2_consider_root

theorem run2_instr1 :
    run_instruction 10 1 dend_short [soma_root] [(0, 1)] =
      some ([soma_root], [(0, 1), (1, 1)]) := by
  show (match grow_loop m_short [⟨100, 0, 0⟩] 1 10
      ⟨[soma_root], [false], seed_queue m_short dend_short [soma_root] [(0, 1)]⟩ with
    | none => none
    | some s => some (s.nodes, [(0, 1), (1, s.nodes.length)])) = _
  rw [run2_seed, @grow_loop_done m_short [⟨100, 0, 0⟩] 1 10 ⟨[soma_root], [false], []⟩ rfl]
  rfl

theorem run2_instrs :
    run_instructions 10 instrs_short 0 ([], []) = some ([soma_root], [(0, 1), (1, 1)]) := by
  show (match run_instruction 10 0 soma10 [] [] with
    | none => none
    | some acc2 => run_instructions 10 [dend_short] 1 acc2) = _
  rw [run1_instr0]
  show (match run_instruction 10 1 dend_short [soma_root] [(0, 1)] with
    | none => none
    | some acc2 => run_instructions 10 [] 2 acc2) = _
  rw [run2_instr1]
  rfl

theorem create_short_eval :
    create dd_test 10 instrs_short = some [⟨⟨0, 0, 0⟩, 10, none, 0, 0, 0⟩] := by
  unfold create
  rw [if_pos ⟨check_soma_dend (simple_params 5 5 (by norm_num) (by norm_num) 1),
    by norm_num [instrs_short, soma10, dend_short],
    by norm_num [instrs_short, soma10, dend_short]⟩]
  rw [run2_instrs]
  show some (DendriteDiameterQuadraticApprox.calculate_quadratic_diameters dd_test instrs_short
    [soma_root]) = _
  rfl

/-!  Concrete run: the program instrs_chain (claim C5).  Both carrier points
commit in a chain, leaving the middle node with one child although
maximum_branches is zero. -/

theorem run3_consider_root :
    consider_all_potential_segments m_nobranch [⟨10, 0, 0⟩, ⟨20, 0, 0⟩] [false, false] 0
      soma_root = [⟨0, 10, 0, 0⟩, ⟨0, 20, 1, 0⟩] := by
  have hsq1 : Real.sqrt 100 = 10 := sqrt_eval (by norm_num) (by norm_num)
  have hsq2 : Real.sqrt 400 = 20 := sqrt_eval (by norm_num) (by norm_num)
  unfold consider_all_potential_segments
  simp only []
  rw [if_neg (show ¬(soma_root.is_segment ∧
      soma_root.num_children > m_nobranch.maximum_branches)
    from by simp [soma_root, Node.new_root, Node.is_segment])]
  rw [show enqueue_maximum_distance m_nobranch soma_root = ((1000 : ℝ) : EReal) from by
    simp [enqueue_maximum_distance, soma_root, Node.new_root, Node.is_root, m_nobranch]]
  rw [if_pos ⟨EReal.coe_ne_top 1000, EReal.coe_ne_bot 1000⟩]
  simp only [List.length_cons, List.length_nil, show List.range 2 = [0, 1] from by decide,
    List.filterMap_cons, List.filterMap_nil, List.getD_cons_zero, List.getD_cons_succ]
  norm_num [squared_distance, sub, soma_root, Node.new_root, EReal.toReal_coe, priority,
    m_nobranch, hsq1, hsq2]

theorem run3_consider_n1 :
    consider_all_potential_segments m_nobranch [⟨10, 0, 0⟩, ⟨20, 0, 0⟩] [true, false] 1
      ⟨⟨10, 0, 0⟩, 1, some 0, 1, 0, 10⟩ = [⟨0, 10, 1, 1⟩] := by
  have hsq1 : Real.sqrt 100 = 10 := sqrt_eval (by norm_num) (by norm_num)
  unfold consider_all_potential_segments
  simp only []
  rw [if_neg (show ¬(Node.is_segment ⟨⟨10, 0, 0⟩, 1, some 0, 1, 0, 10⟩ ∧
      Node.num_children ⟨⟨10, 0, 0⟩, 1, some 0, 1, 0, 10⟩ > m_nobranch.maximum_branches)
    from by simp [Node.is_segment, m_nobranch])]
  rw [show enqueue_maximum_distance m_nobranch ⟨⟨10, 0, 0⟩, 1, some 0, 1, 0, 10⟩ =
      ((1000 : ℝ) : EReal) from by
    simp [enqueue_maximum_distance, Node.is_root, m_nobranch]]
  rw [if_pos ⟨EReal.coe_ne_top 1000, EReal.coe_ne_bot 1000⟩]
  simp only [List.length_cons, List.length_nil, show List.range 2 = [0, 1] from by decide,
    List.filterMap_cons, List.filterMap_nil, List.getD_cons_zero, List.getD_cons_succ]
  norm_num [squared_distance, sub, EReal.toReal_coe, priority, m_nobranch, hsq1]

theorem run3_seed :
    seed_queue m_nobranch dend_chain [soma_root] [(0, 1)] =
      [⟨0, 10, 0, 0⟩, ⟨0, 20, 1, 0⟩] := by
  unfold seed_queue dend_chain
  simp only [List.flatMap_cons, List.flatMap_nil, List.getD_cons_zero,
    List.length_cons, List.length_nil,
    show List.replicate 2 false = [false, false] from rfl,
    show List.range' 0 1 = [0] from by decide, List.append_nil]
  exact run3_consider_root

theorem run3_grow :
    grow_loop m_nobranch [⟨10, 0, 0⟩, ⟨20, 0, 0⟩] 1 10
      ⟨[soma_root], [false, false], [⟨0, 10, 0, 0⟩, ⟨0, 20, 1, 0⟩]⟩ =
      some ⟨[⟨⟨0, 0, 0⟩, 10, none, 0, 1, 0⟩, ⟨⟨10, 0, 0⟩, 1, some 0, 1, 1, 10⟩,
        ⟨⟨20, 0, 0⟩, 1, some 1, 1, 0, 20⟩], [true, true], []⟩ := by
  have hd1 : distance soma_root.coordinates ⟨10, 0, 0⟩ = 10 := by
    show distance (⟨0, 0, 0⟩ : Vec3) ⟨10, 0, 0⟩ = 10
    rw [distance_mk]; exact sqrt_eval (by norm_num) (by norm_num)
  have hd1b : distance (⟨0, 0, 0⟩ : Vec3) ⟨10, 0, 0⟩ = 10 := hd1
  have hd2 : distance (⟨10, 0, 0⟩ : Vec3) ⟨20, 0, 0⟩ = 10 := by
    rw [distance_mk]; exact sqrt_eval (by norm_num) (by norm_num)
  -- first pop: the candidate with priority 10 wins against priority 20
  have hpop1 : pop_best [(⟨0, 10, 0, 0⟩ : PotentialSegment), ⟨0, 20, 1, 0⟩] =
      some (⟨0, 10, 0, 0⟩, [⟨0, 20, 1, 0⟩]) := by
    have hstep : pop_best [(⟨0, 10, 0, 0⟩ : PotentialSegment), ⟨0, 20, 1, 0⟩] =
        match pop_best [(⟨0, 20, 1, 0⟩ : PotentialSegment)] with
        | none => some (⟨0, 10, 0, 0⟩, [])
        | some (y, ys) =>
          if PotentialSegment.cmp ⟨0, 10, 0, 0⟩ y = Ordering.lt then
            some (y, ⟨0, 10, 0, 0⟩ :: ys)
          else some (⟨0, 10, 0, 0⟩, [⟨0, 20, 1, 0⟩]) := rfl
    rw [hstep, show pop_best [(⟨0, 20, 1, 0⟩ : PotentialSegment)] =
      some (⟨0, 20, 1, 0⟩, []) from rfl]
    show (if PotentialSegment.cmp (⟨0, 10, 0, 0⟩ : PotentialSegment) ⟨0, 20, 1, 0⟩ =
        Ordering.lt then
      some ((⟨0, 20, 1, 0⟩ : PotentialSegment), ([⟨0, 10, 0, 0⟩] : List PotentialSegment))
      else some ((⟨0, 10, 0, 0⟩ : PotentialSegment),
        ([⟨0, 20, 1, 0⟩] : List PotentialSegment))) = _
    rw [if_neg (show ¬(PotentialSegment.cmp (⟨0, 10, 0, 0⟩ : PotentialSegment) ⟨0, 20, 1, 0⟩ =
        Ordering.lt) from by
      rw [cmp_lt_iff]; rintro (h | ⟨_, h⟩) <;> norm_num at h)]
  have h1a : ([false, false] : List Bool).getD 0 false = false := rfl
  have h2a : ¬(soma_root.is_segment ∧ soma_root.num_children > m_nobranch.maximum_branches) := by
    simp [soma_root, Node.new_root, Node.is_segment]
  have h3a : ¬(((distance soma_root.coordinates ⟨10, 0, 0⟩ : ℝ) : EReal) >
      pop_maximum_distance m_nobranch soma_root) := by
    have hpm : pop_maximum_distance m_nobranch soma_root = ((1000 : ℝ) : EReal) := by
      simp [pop_maximum_distance, soma_root, Node.new_root, Node.is_root, m_nobranch]
    rw [hpm, hd1, gt_iff_lt, EReal.coe_lt_coe_iff]
    norm_num
  have h4a : ¬((if soma_root.num_children = 0 then m_nobranch.extension_angle
        else m_nobranch.branch_angle) < Real.pi - f64_epsilon ∧
      soma_root.is_segment ∧
      angle (sub (([soma_root] : List Node).getD (soma_root.parent_index.getD 0)
          default).coordinates soma_root.coordinates)
        (sub soma_root.coordinates (⟨10, 0, 0⟩ : Vec3)) >
        (if soma_root.num_children = 0 then m_nobranch.extension_angle
          else m_nobranch.branch_angle)) := by
    intro hc
    exact pi_angle_guard hc.1
  have h5a : ¬(m_nobranch.extend_before_branch ∧
      (⟨0, 10, 0, 0⟩ : PotentialSegment).branch_num < soma_root.num_children) := by
    simp [m_nobranch]
  have hcommit1 : process_segment m_nobranch [⟨10, 0, 0⟩, ⟨20, 0, 0⟩] 1 [soma_root]
      [false, false] ⟨0, 10, 0, 0⟩ [⟨0, 20, 1, 0⟩] =
      ⟨[⟨⟨0, 0, 0⟩, 10, none, 0, 1, 0⟩, ⟨⟨10, 0, 0⟩, 1, some 0, 1, 0, 10⟩],
        [true, false], [⟨0, 20, 1, 0⟩, ⟨0, 10, 1, 1⟩]⟩ := by
    rw [@process_segment_commit m_nobranch [⟨10, 0, 0⟩, ⟨20, 0, 0⟩] 1 [soma_root]
      [false, false] ⟨0, 10, 0, 0⟩ [⟨0, 20, 1, 0⟩] h1a h2a h3a h4a h5a]
    norm_num [soma_root, Node.new_root, Node.new_segment, hd1b, List.getD_cons_zero,
      List.getD_cons_succ, List.set_cons_zero, List.set_cons_succ, List.cons_append,
      List.nil_append, m_nobranch]
    exact run3_consider_n1
  have hpop2 : pop_best [(⟨0, 20, 1, 0⟩ : PotentialSegment), ⟨0, 10, 1, 1⟩] =
      some (⟨0, 10, 1, 1⟩, [⟨0, 20, 1, 0⟩]) := by
    have hstep : pop_best [(⟨0, 20, 1, 0⟩ : PotentialSegment), ⟨0, 10, 1, 1⟩] =
        match pop_best [(⟨0, 10, 1, 1⟩ : PotentialSegment)] with
        | none => some (⟨0, 20, 1, 0⟩, [])
        | some (y, ys) =>
          if PotentialSegment.cmp ⟨0, 20, 1, 0⟩ y = Ordering.lt then
            some (y, ⟨0, 20, 1, 0⟩ :: ys)
          else some (⟨0, 20, 1, 0⟩, [⟨0, 10, 1, 1⟩]) := rfl
    rw [hstep, show pop_best [(⟨0, 10, 1, 1⟩ : PotentialSegment)] =
      some (⟨0, 10, 1, 1⟩, []) from rfl]
    show (if PotentialSegment.cmp (⟨0, 20, 1, 0⟩ : PotentialSegment) ⟨0, 10, 1, 1⟩ =
        Ordering.lt then
      some ((⟨0, 10, 1, 1⟩ : PotentialSegment), ([⟨0, 20, 1, 0⟩] : List PotentialSegment))
      else some ((⟨0, 20, 1, 0⟩ : PotentialSegment),
        ([⟨0, 10, 1, 1⟩] : List PotentialSegment))) = _
    rw [if_pos (show PotentialSegment.cmp (⟨0, 20, 1, 0⟩ : PotentialSegment) ⟨0, 10, 1, 1⟩ =
        Ordering.lt from by
      rw [cmp_lt_iff]; exact Or.inr ⟨rfl, by norm_num⟩)]
  have h1b : ([true, false] : List Bool).getD 1 false = false := rfl
  have h2b : ¬(Node.is_segment ⟨⟨10, 0, 0⟩, 1, some 0, 1, 0, 10⟩ ∧
      Node.num_children ⟨⟨10, 0, 0⟩, 1, some 0, 1, 0, 10⟩ > m_nobranch.maximum_branches) := by
    simp [Node.is_segment, m_nobranch]
  have h3b : ¬(((distance (Node.coordinates ⟨⟨10, 0, 0⟩, 1, some 0, 1, 0, 10⟩)
        ⟨20, 0, 0⟩ : ℝ) : EReal) >
      pop_maximum_distance m_nobranch ⟨⟨10, 0, 0⟩, 1, some 0, 1, 0, 10⟩) := by
    have hpm : pop_maximum_distance m_nobranch ⟨⟨10, 0, 0⟩, 1, some 0, 1, 0, 10⟩ =
        ((1000 : ℝ) : EReal) := by
      simp [pop_maximum_distance, Node.is_root, m_nobranch]
    rw [hpm]
    show ¬(((distance (⟨10, 0, 0⟩ : Vec3) ⟨20, 0, 0⟩ : ℝ) : EReal) > ((1000 : ℝ) : EReal))
    rw [hd2, gt_iff_lt, EReal.coe_lt_coe_iff]
    norm_num
  have h4b : ¬((if Node.num_children ⟨⟨10, 0, 0⟩, 1, some 0, 1, 0, 10⟩ = 0 then
        m_nobranch.extension_angle else m_nobranch.branch_angle) <
        Real.pi - f64_epsilon ∧
      Node.is_segment ⟨⟨10, 0, 0⟩, 1, some 0, 1, 0, 10⟩ ∧
      angle (sub (([⟨⟨0, 0, 0⟩, 10, none, 0, 1, 0⟩, ⟨⟨10, 0, 0⟩, 1, some 0, 1, 0, 10⟩] :
          List Node).getD ((Node.parent_index ⟨⟨10, 0, 0⟩, 1, some 0, 1, 0, 10⟩).getD 0)
          default).coordinates
          (Node.coordinates ⟨⟨10, 0, 0⟩, 1, some 0, 1, 0, 10⟩))
        (sub (Node.coordinates ⟨⟨10, 0, 0⟩, 1, some 0, 1, 0, 10⟩) (⟨20, 0, 0⟩ : Vec3)) >
        (if Node.num_children ⟨⟨10, 0, 0⟩, 1, some 0, 1, 0, 10⟩ = 0 then
          m_nobranch.extension_angle else m_nobranch.branch_angle)) := by
    intro hc
    exact pi_angle_guard hc.1
  have h5b : ¬(m_nobranch.extend_before_branch ∧
      (⟨0, 10, 1, 1⟩ : PotentialSegment).branch_num <
        Node.num_children ⟨⟨10, 0, 0⟩, 1, some 0, 1, 0, 10⟩) := by
    simp [m_nobranch]
  have hocc2 : ∀ ci < ([⟨10, 0, 0⟩, ⟨20, 0, 0⟩] : List Vec3).length,
      ([true, true] : List Bool).getD ci false = true := by
    intro ci hci
    simp only [List.length_cons, List.length_nil] at hci
    interval_cases ci <;> rfl
  have hcommit2 : process_segment m_nobranch [⟨10, 0, 0⟩, ⟨20, 0, 0⟩] 1
      [⟨⟨0, 0, 0⟩, 10, none, 0, 1, 0⟩, ⟨⟨10, 0, 0⟩, 1, some 0, 1, 0, 10⟩]
      [true, false] ⟨0, 10, 1, 1⟩ [⟨0, 20, 1, 0⟩] =
      ⟨[⟨⟨0, 0, 0⟩, 10, none, 0, 1, 0⟩, ⟨⟨10, 0, 0⟩, 1, some 0, 1, 1, 10⟩,
        ⟨⟨20, 0, 0⟩, 1, some 1, 1, 0, 20⟩], [true, true], [⟨0, 20, 1, 0⟩]⟩ := by
    rw [@process_segment_commit m_nobranch [⟨10, 0, 0⟩, ⟨20, 0, 0⟩] 1
      [⟨⟨0, 0, 0⟩, 10, none, 0, 1, 0⟩, ⟨⟨10, 0, 0⟩, 1, some 0, 1, 0, 10⟩]
      [true, false] ⟨0, 10, 1, 1⟩ [⟨0, 20, 1, 0⟩] h1b h2b h3b h4b h5b]
    norm_num [Node.new_segment, hd2, List.getD_cons_zero,
      List.getD_cons_succ, List.set_cons_zero, List.set_cons_succ, List.cons_append,
      List.nil_append, m_nobranch]
    exact consider_all_occupied hocc2
  have hgs1 : grow_step m_nobranch [⟨10, 0, 0⟩, ⟨20, 0, 0⟩] 1
      ⟨[soma_root], [false, false], [⟨0, 10, 0, 0⟩, ⟨0, 20, 1, 0⟩]⟩ =
      some (process_segment m_nobranch [⟨10, 0, 0⟩, ⟨20, 0, 0⟩] 1 [soma_root]
        [false, false] ⟨0, 10, 0, 0⟩ [⟨0, 20, 1, 0⟩]) :=
    @grow_step_of_pop_some m_nobranch [⟨10, 0, 0⟩, ⟨20, 0, 0⟩] 1
      ⟨[soma_root], [false, false], [⟨0, 10, 0, 0⟩, ⟨0, 20, 1, 0⟩]⟩
      ⟨0, 10, 0, 0⟩ [⟨0, 20, 1, 0⟩] hpop1
  have hgs2 : grow_step m_nobranch [⟨10, 0, 0⟩, ⟨20, 0, 0⟩] 1
      ⟨[⟨⟨0, 0, 0⟩, 10, none, 0, 1, 0⟩, ⟨⟨10, 0, 0⟩, 1, some 0, 1, 0, 10⟩],
        [true, false], [⟨0, 20, 1, 0⟩, ⟨0, 10, 1, 1⟩]⟩ =
      some (process_segment m_nobranch [⟨10, 0, 0⟩, ⟨20, 0, 0⟩] 1
        [⟨⟨0, 0, 0⟩, 10, none, 0, 1, 0⟩, ⟨⟨10, 0, 0⟩, 1, some 0, 1, 0, 10⟩]
        [true, false] ⟨0, 10, 1, 1⟩ [⟨0, 20, 1, 0⟩]) :=
    @grow_step_of_pop_some m_nobranch [⟨10, 0, 0⟩, ⟨20, 0, 0⟩] 1
      ⟨[⟨⟨0, 0, 0⟩, 10, none, 0, 1, 0⟩, ⟨⟨10, 0, 0⟩, 1, some 0, 1, 0, 10⟩],
        [true, false], [⟨0, 20, 1, 0⟩, ⟨0, 10, 1, 1⟩]⟩
      ⟨0, 10, 1, 1⟩ [⟨0, 20, 1, 0⟩] hpop2
  have hgs3 : grow_step m_nobranch [⟨10, 0, 0⟩, ⟨20, 0, 0⟩] 1
      ⟨[⟨⟨0, 0, 0⟩, 10, none, 0, 1, 0⟩, ⟨⟨10, 0, 0⟩, 1, some 0, 1, 1, 10⟩,
        ⟨⟨20, 0, 0⟩, 1, some 1, 1, 0, 20⟩], [true, true], [⟨0, 20, 1, 0⟩]⟩ =
      some (process_segment m_nobranch [⟨10, 0, 0⟩, ⟨20, 0, 0⟩] 1
        [⟨⟨0, 0, 0⟩, 10, none, 0, 1, 0⟩, ⟨⟨10, 0, 0⟩, 1, some 0, 1, 1, 10⟩,
          ⟨⟨20, 0, 0⟩, 1, some 1, 1, 0, 20⟩]
        [true, true] ⟨0, 20, 1, 0⟩ []) :=
    @grow_step_of_pop_some m_nobranch [⟨10, 0, 0⟩, ⟨20, 0, 0⟩] 1
      ⟨[⟨⟨0, 0, 0⟩, 10, none, 0, 1, 0⟩, ⟨⟨10, 0, 0⟩, 1, some 0, 1, 1, 10⟩,
        ⟨⟨20, 0, 0⟩, 1, some 1, 1, 0, 20⟩], [true, true], [⟨0, 20, 1, 0⟩]⟩
      ⟨0, 20, 1, 0⟩ [] rfl
  have hskip3 : process_segment m_nobranch [⟨10, 0, 0⟩, ⟨20, 0, 0⟩] 1
      [⟨⟨0, 0, 0⟩, 10, none, 0, 1, 0⟩, ⟨⟨10, 0, 0⟩, 1, some 0, 1, 1, 10⟩,
        ⟨⟨20, 0, 0⟩, 1, some 1, 1, 0, 20⟩]
      [true, true] ⟨0, 20, 1, 0⟩ [] =
      ⟨[⟨⟨0, 0, 0⟩, 10, none, 0, 1, 0⟩, ⟨⟨10, 0, 0⟩, 1, some 0, 1, 1, 10⟩,
        ⟨⟨20, 0, 0⟩, 1, some 1, 1, 0, 20⟩], [true, true], []⟩ :=
    process_segment_skip_occupied rfl
  rw [grow_loop_step_fuel (show (10 : ℕ) = 9 + 1 from rfl) hgs1, hcommit1]
  rw [grow_loop_step_fuel (show (9 : ℕ) = 8 + 1 from rfl) hgs2, hcommit2]
  rw [grow_loop_step_fuel (show (8 : ℕ) = 7 + 1 from rfl) hgs3, hskip3]
  exact grow_loop_done rfl

theorem run3_instr1 :
    run_instruction 10 1 dend_chain [soma_root] [(0, 1)] =
      some ([⟨⟨0, 0, 0⟩, 10, none, 0, 1, 0⟩, ⟨⟨10, 0, 0⟩, 1, some 0, 1, 1, 10⟩,
        ⟨⟨20, 0, 0⟩, 1, some 1, 1, 0, 20⟩], [(0, 1), (1, 3)]) := by
  show (match grow_loop m_nobranch [⟨10, 0, 0⟩, ⟨20, 0, 0⟩] 1 10
      ⟨[soma_root], [false, false], seed_queue m_nobranch dend_chain [soma_root] [(0, 1)]⟩ with
    | none => none
    | some s => some (s.nodes, [(0, 1), (1, s.nodes.length)])) = _
  rw [run3_seed, run3_grow]
  rfl

theorem run3_instrs :
    run_instructions 10 instrs_chain 0 ([], []) =
      some ([⟨⟨0, 0, 0⟩, 10, none, 0, 1, 0⟩, ⟨⟨10, 0, 0⟩, 1, some 0, 1, 1, 10⟩,
        ⟨⟨20, 0, 0⟩, 1, some 1, 1, 0, 20⟩], [(0, 1), (1, 3)]) := by
  show (match run_instruction 10 0 soma10 [] [] with
    | none => none
    | some acc2 => run_instructions 10 [dend_chain] 1 acc2) = _
  rw [run1_instr0]
  show (match run_instruction 10 1 dend_chain [soma_root] [(0, 1)] with
    | none => none
    | some acc2 => run_instructions 10 [] 2 acc2) = _
  rw [run3_instr1]
  rfl

theorem run3_walk :
    path_walk [⟨⟨0, 0, 0⟩, 10, none, 0, 1, 0⟩, ⟨⟨10, 0, 0⟩, 1, some 0, 1, 1, 10⟩,
      ⟨⟨20, 0, 0⟩, 1, some 1, 1, 0, 20⟩] (1, 1, 1) (1 / 20) 3 2
      [(0, 0), (0, 0), (0, 0)] = [(1, 1), (1, 7 / 4), (1, 3)] := by
  show [((0 : ℕ) + 1, (0 : ℝ) + eval_polynomial (1, 1, 1) (0 * (1 / 20))),
    ((0 : ℕ) + 1, (0 : ℝ) + eval_polynomial (1, 1, 1) (10 * (1 / 20))),
    ((0 : ℕ) + 1, (0 : ℝ) + eval_polynomial (1, 1, 1) (20 * (1 / 20)))] =
    [(1, 1), (1, 7 / 4), (1, 3)]
  norm_num [eval_polynomial]

theorem run3_accumulate :
    DendriteDiameterQuadraticApprox.accumulate dd_test instrs_chain
      [⟨⟨0, 0, 0⟩, 10, none, 0, 1, 0⟩, ⟨⟨10, 0, 0⟩, 1, some 0, 1, 1, 10⟩,
        ⟨⟨20, 0, 0⟩, 1, some 1, 1, 0, 20⟩] = [(1, 1), (1, 7 / 4), (1, 3)] := by
  unfold DendriteDiameterQuadraticApprox.accumulate
  simp only [List.length_cons, List.length_nil, show List.range 3 = [0, 1, 2] from by decide,
    List.foldl_cons, List.foldl_nil, List.getD_cons_zero, List.getD_cons_succ,
    show List.replicate 3 ((0 : ℕ), (0 : ℝ)) = [(0, 0), (0, 0), (0, 0)] from rfl]
  rw [if_neg (show ¬Node.is_terminal ⟨⟨0, 0, 0⟩, 10, none, 0, 1, 0⟩ from by
    simp [Node.is_terminal])]
  rw [if_neg (show ¬Node.is_terminal ⟨⟨10, 0, 0⟩, 1, some 0, 1, 1, 10⟩ from by
    simp [Node.is_terminal])]
  rw [if_pos (show Node.is_terminal ⟨⟨20, 0, 0⟩, 1, some 1, 1, 0, 20⟩ from rfl)]
  simp only [instrs_chain, dend_chain, List.getD_cons_succ, List.getD_cons_zero]
  simp only [dd_test]
  rw [interp_points_single_gt (by norm_num : (1 : ℝ) < 20)]
  simp only [List.getD_cons_zero]
  norm_num [scale_polynomial, m_nobranch]
  exact run3_walk

theorem run3_solver :
    DendriteDiameterQuadraticApprox.calculate_quadratic_diameters dd_test instrs_chain
      [⟨⟨0, 0, 0⟩, 10, none, 0, 1, 0⟩, ⟨⟨10, 0, 0⟩, 1, some 0, 1, 1, 10⟩,
        ⟨⟨20, 0, 0⟩, 1, some 1, 1, 0, 20⟩] =
      [⟨⟨0, 0, 0⟩, 10, none, 0, 1, 0⟩, ⟨⟨10, 0, 0⟩, 7 / 4, some 0, 1, 1, 10⟩,
        ⟨⟨20, 0, 0⟩, 3, some 1, 1, 0, 20⟩] := by
  unfold DendriteDiameterQuadraticApprox.calculate_quadratic_diameters
  rw [run3_accumulate]
  simp only [List.zip_cons_cons, List.zip_nil_right, List.map_cons, List.map_nil,
    instrs_chain, dend_chain, soma10, List.getD_cons_zero, List.getD_cons_succ]
  norm_num [m_nobranch]

theorem create_chain_eval :
    create dd_test 10 instrs_chain =
      some [⟨⟨0, 0, 0⟩, 10, none, 0, 1, 0⟩, ⟨⟨10, 0, 0⟩, 7 / 4, some 0, 1, 1, 10⟩,
        ⟨⟨20, 0, 0⟩, 3, some 1, 1, 0, 20⟩] := by
  unfold create
  rw [if_pos ⟨check_soma_dend (simple_params 1000 1000 (by norm_num) (by norm_num) 0),
    by norm_num [instrs_chain, soma10, dend_chain],
    by norm_num [instrs_chain, soma10, dend_chain]⟩]
  rw [run3_instrs]
  show some (DendriteDiameterQuadraticApprox.calculate_quadratic_diameters dd_test instrs_chain
    [⟨⟨0, 0, 0⟩, 10, none, 0, 1, 0⟩, ⟨⟨10, 0, 0⟩, 1, some 0, 1, 1, 10⟩,
      ⟨⟨20, 0, 0⟩, 1, some 1, 1, 0, 20⟩]) = _
  rw [run3_solver]


/-!  Concrete run: the program instrs_asym (claim C6).  The second carrier
point lies 8 away from the first committed node: inside the branch limit 50
(so the enqueue radius max(5, 50) admits it), but outside the extension
limit 5 that the pop-time recheck applies to a childless non-root parent,
so the candidate is discarded when popped. -/

theorem run4_consider_root :
    consider_all_potential_segments m_asym [⟨4, 0, 0⟩, ⟨12, 0, 0⟩] [false, false] 0
      soma_root = [⟨0, 4, 0, 0⟩] := by
  have hsq1 : Real.sqrt 16 = 4 := sqrt_eval (by norm_num) (by norm_num)
  unfold consider_all_potential_segments
  simp only []
  rw [if_neg (show ¬(soma_root.is_segment ∧
      soma_root.num_children > m_asym.maximum_branches)
    from by simp [soma_root, Node.new_root, Node.is_segment])]
  rw [show enqueue_maximum_distance m_asym soma_root = ((5 : ℝ) : EReal) from by
    simp [enqueue_maximum_distance, soma_root, Node.new_root, Node.is_root, m_asym]]
  rw [if_pos ⟨EReal.coe_ne_top 5, EReal.coe_ne_bot 5⟩]
  simp only [List.length_cons, List.length_nil, show List.range 2 = [0, 1] from by decide,
    List.filterMap_cons, List.filterMap_nil, List.getD_cons_zero, List.getD_cons_succ]
  norm_num [squared_distance, sub, soma_root, Node.new_root, EReal.toReal_coe, priority,
    m_asym, hsq1]

theorem run4_consider_n1 :
    consider_all_potential_segments m_asym [⟨4, 0, 0⟩, ⟨12, 0, 0⟩] [true, false] 1
      ⟨⟨4, 0, 0⟩, 1, some 0, 1, 0, 4⟩ = [⟨0, 8, 1, 1⟩] := by
  have hsq1 : Real.sqrt 64 = 8 := sqrt_eval (by norm_num) (by norm_num)
  unfold consider_all_potential_segments
  simp only []
  rw [if_neg (show ¬(Node.is_segment ⟨⟨4, 0, 0⟩, 1, some 0, 1, 0, 4⟩ ∧
      Node.num_children ⟨⟨4, 0, 0⟩, 1, some 0, 1, 0, 4⟩ > m_asym.maximum_branches)
    from by simp [Node.is_segment, m_asym])]
  rw [show enqueue_maximum_distance m_asym ⟨⟨4, 0, 0⟩, 1, some 0, 1, 0, 4⟩ =
      ((50 : ℝ) : EReal) from by
    unfold enqueue_maximum_distance
    rw [if_neg (show ¬Node.is_root ⟨⟨4, 0, 0⟩, 1, some 0, 1, 0, 4⟩ from by
      simp [Node.is_root])]
    rw [if_pos (show Node.num_children ⟨⟨4, 0, 0⟩, 1, some 0, 1, 0, 4⟩ = 0 from rfl)]
    show max m_asym.extension_distance m_asym.branch_distance = _
    show max (((5 : ℝ) : EReal)) (((50 : ℝ) : EReal)) = _
    exact max_eq_right (by rw [EReal.coe_le_coe_iff]; norm_num)]
  rw [if_pos ⟨EReal.coe_ne_top 50, EReal.coe_ne_bot 50⟩]
  simp only [List.length_cons, List.length_nil, show List.range 2 = [0, 1] from by decide,
    List.filterMap_cons, List.filterMap_nil, List.getD_cons_zero, List.getD_cons_succ]
  norm_num [squared_distance, sub, EReal.toReal_coe, priority, m_asym, hsq1]

theorem run4_seed :
    seed_queue m_asym dend_asym [soma_root] [(0, 1)] = [⟨0, 4, 0, 0⟩] := by
  unfold seed_queue dend_asym
  simp only [List.flatMap_cons, List.flatMap_nil, List.getD_cons_zero,
    List.length_cons, List.length_nil,
    show List.replicate 2 false = [false, false] from rfl,
    show List.range' 0 1 = [0] from by decide, List.append_nil]
  exact run4_consider_root

theorem run4_grow :
    grow_loop m_asym [⟨4, 0, 0⟩, ⟨12, 0, 0⟩] 1 10
      ⟨[soma_root], [false, false], [⟨0, 4, 0, 0⟩]⟩ =
      some ⟨[⟨⟨0, 0, 0⟩, 10, none, 0, 1, 0⟩, ⟨⟨4, 0, 0⟩, 1, some 0, 1, 0, 4⟩],
        [true, false], []⟩ := by
  have hd1 : distance soma_root.coordinates ⟨4, 0, 0⟩ = 4 := by
    show distance (⟨0, 0, 0⟩ : Vec3) ⟨4, 0, 0⟩ = 4
    rw [distance_mk]; exact sqrt_eval (by norm_num) (by norm_num)
  have hd1b : distance (⟨0, 0, 0⟩ : Vec3) ⟨4, 0, 0⟩ = 4 := hd1
  have hd2 : distance (⟨4, 0, 0⟩ : Vec3) ⟨12, 0, 0⟩ = 8 := by
    rw [distance_mk]; exact sqrt_eval (by norm_num) (by norm_num)
  -- step 1: the candidate at distance 4 passes the recheck and commits
  have h1a : ([false, false] : List Bool).getD 0 false = false := rfl
  have h2a : ¬(soma_root.is_segment ∧ soma_root.num_children > m_asym.maximum_branches) := by
    simp [soma_root, Node.new_root, Node.is_segment]
  have h3a : ¬(((distance soma_root.coordinates ⟨4, 0, 0⟩ : ℝ) : EReal) >
      pop_maximum_distance m_asym soma_root) := by
    have hpm : pop_maximum_distance m_asym soma_root = ((5 : ℝ) : EReal) := by
      simp [pop_maximum_distance, soma_root, Node.new_root, Node.is_root, m_asym]
    rw [hpm, hd1, gt_iff_lt, EReal.coe_lt_coe_iff]
    norm_num
  have h4a : ¬((if soma_root.num_children = 0 then m_asym.extension_angle
        else m_asym.branch_angle) < Real.pi - f64_epsilon ∧
      soma_root.is_segment ∧
      angle (sub (([soma_root] : List Node).getD (soma_root.parent_index.getD 0)
          default).coordinates soma_root.coordinates)
        (sub soma_root.coordinates (⟨4, 0, 0⟩ : Vec3)) >
        (if soma_root.num_children = 0 then m_asym.extension_angle
          else m_asym.branch_angle)) := by
    intro hc
    exact pi_angle_guard hc.1
  have h5a : ¬(m_asym.extend_before_branch ∧
      (⟨0, 4, 0, 0⟩ : PotentialSegment).branch_num < soma_root.num_children) := by
    simp [m_asym]
  have hcommit1 : process_segment m_asym [⟨4, 0, 0⟩, ⟨12, 0, 0⟩] 1 [soma_root]
      [false, false] ⟨0, 4, 0, 0⟩ [] =
      ⟨[⟨⟨0, 0, 0⟩, 10, none, 0, 1, 0⟩, ⟨⟨4, 0, 0⟩, 1, some 0, 1, 0, 4⟩],
        [true, false], [⟨0, 8, 1, 1⟩]⟩ := by
    rw [@process_segment_commit m_asym [⟨4, 0, 0⟩, ⟨12, 0, 0⟩] 1 [soma_root]
      [false, false] ⟨0, 4, 0, 0⟩ [] h1a h2a h3a h4a h5a]
    norm_num [soma_root, Node.new_root, Node.new_segment, hd1b, List.getD_cons_zero,
      List.getD_cons_succ, List.set_cons_zero, List.set_cons_succ, List.cons_append,
      List.nil_append, m_asym]
    exact run4_consider_n1
  -- step 2: the candidate at distance 8 fails the pop-time recheck
  have h1b : ([true, false] : List Bool).getD 1 false = false := rfl
  have h2b : ¬(Node.is_segment ⟨⟨4, 0, 0⟩, 1, some 0, 1, 0, 4⟩ ∧
      Node.num_children ⟨⟨4, 0, 0⟩, 1, some 0, 1, 0, 4⟩ > m_asym.maximum_branches) := by
    simp [Node.is_segment, m_asym]
  have h3b : ((distance (Node.coordinates ⟨⟨4, 0, 0⟩, 1, some 0, 1, 0, 4⟩)
        ⟨12, 0, 0⟩ : ℝ) : EReal) >
      pop_maximum_distance m_asym ⟨⟨4, 0, 0⟩, 1, some 0, 1, 0, 4⟩ := by
    have hpm : pop_maximum_distance m_asym ⟨⟨4, 0, 0⟩, 1, some 0, 1, 0, 4⟩ =
        ((5 : ℝ) : EReal) := by
      simp [pop_maximum_distance, Node.is_root, m_asym]
    rw [hpm]
    show ((distance (⟨4, 0, 0⟩ : Vec3) ⟨12, 0, 0⟩ : ℝ) : EReal) > ((5 : ℝ) : EReal)
    rw [hd2, gt_iff_lt, EReal.coe_lt_coe_iff]
    norm_num
  have hskip2 : process_segment m_asym [⟨4, 0, 0⟩, ⟨12, 0, 0⟩] 1
      [⟨⟨0, 0, 0⟩, 10, none, 0, 1, 0⟩, ⟨⟨4, 0, 0⟩, 1, some 0, 1, 0, 4⟩]
      [true, false] ⟨0, 8, 1, 1⟩ [] =
      ⟨[⟨⟨0, 0, 0⟩, 10, none, 0, 1, 0⟩, ⟨⟨4, 0, 0⟩, 1, some 0, 1, 0, 4⟩],
        [true, false], []⟩ :=
    process_segment_skip_distance h1b h2b h3b
  have hgs1 : grow_step m_asym [⟨4, 0, 0⟩, ⟨12, 0, 0⟩] 1
      ⟨[soma_root], [false, false], [⟨0, 4, 0, 0⟩]⟩ =
      some (process_segment m_asym [⟨4, 0, 0⟩, ⟨12, 0, 0⟩] 1 [soma_root]
        [false, false] ⟨0, 4, 0, 0⟩ []) :=
    @grow_step_of_pop_some m_asym [⟨4, 0, 0⟩, ⟨12, 0, 0⟩] 1
      ⟨[soma_root], [false, false], [⟨0, 4, 0, 0⟩]⟩ ⟨0, 4, 0, 0⟩ [] rfl
  have hgs2 : grow_step m_asym [⟨4, 0, 0⟩, ⟨12, 0, 0⟩] 1
      ⟨[⟨⟨0, 0, 0⟩, 10, none, 0, 1, 0⟩, ⟨⟨4, 0, 0⟩, 1, some 0, 1, 0, 4⟩],
        [true, false], [⟨0, 8, 1, 1⟩]⟩ =
      some (process_segment m_asym [⟨4, 0, 0⟩, ⟨12, 0, 0⟩] 1
        [⟨⟨0, 0, 0⟩, 10, none, 0, 1, 0⟩, ⟨⟨4, 0, 0⟩, 1, some 0, 1, 0, 4⟩]
        [true, false] ⟨0, 8, 1, 1⟩ []) :=
    @grow_step_of_pop_some m_asym [⟨4, 0, 0⟩, ⟨12, 0, 0⟩] 1
      ⟨[⟨⟨0, 0, 0⟩, 10, none, 0, 1, 0⟩, ⟨⟨4, 0, 0⟩, 1, some 0, 1, 0, 4⟩],
        [true, false], [⟨0, 8, 1, 1⟩]⟩ ⟨0, 8, 1, 1⟩ [] rfl
  rw [grow_loop_step_fuel (show (10 : ℕ) = 9 + 1 from rfl) hgs1, hcommit1]
  rw [grow_loop_step_fuel (show (9 : ℕ) = 8 + 1 from rfl) hgs2, hskip2]
  exact grow_loop_done rfl


theorem run4_instr1 :
    run_instruction 10 1 dend_asym [soma_root] [(0, 1)] =
      some ([⟨⟨0, 0, 0⟩, 10, none, 0, 1, 0⟩, ⟨⟨4, 0, 0⟩, 1, some 0, 1, 0, 4⟩],
        [(0, 1), (1, 2)]) := by
  show (match grow_loop m_asym [⟨4, 0, 0⟩, ⟨12, 0, 0⟩] 1 10
      ⟨[soma_root], [false, false], seed_queue m_asym dend_asym [soma_root] [(0, 1)]⟩ with
    | none => none
    | some s => some (s.nodes, [(0, 1), (1, s.nodes.length)])) = _
  rw [run4_seed, run4_grow]
  rfl

theorem run4_instrs :
    run_instructions 10 instrs_asym 0 ([], []) =
      some ([⟨⟨0, 0, 0⟩, 10, none, 0, 1, 0⟩, ⟨⟨4, 0, 0⟩, 1, some 0, 1, 0, 4⟩],
        [(0, 1), (1, 2)]) := by
  show (match run_instruction 10 0 soma10 [] [] with
    | none => none
    | some acc2 => run_instructions 10 [dend_asym] 1 acc2) = _
  rw [run1_instr0]
  show (match run_instruction 10 1 dend_asym [soma_root] [(0, 1)] with
    | none => none
    | some acc2 => run_instructions 10 [] 2 acc2) = _
  rw [run4_instr1]
  rfl

theorem run4_walk :
    path_walk [⟨⟨0, 0, 0⟩, 10, none, 0, 1, 0⟩, ⟨⟨4, 0, 0⟩, 1, some 0, 1, 0, 4⟩]
      (1, 1, 1) (1 / 4) 2 1 [(0, 0), (0, 0)] = [(1, 1), (1, 3)] := by
  show [((0 : ℕ) + 1, (0 : ℝ) + eval_polynomial (1, 1, 1) (0 * (1 / 4))),
    ((0 : ℕ) + 1, (0 : ℝ) + eval_polynomial (1, 1, 1) (4 * (1 / 4)))] = [(1, 1), (1, 3)]
  norm_num [eval_polynomial]

theorem run4_accumulate :
    DendriteDiameterQuadraticApprox.accumulate dd_test instrs_asym
      [⟨⟨0, 0, 0⟩, 10, none, 0, 1, 0⟩, ⟨⟨4, 0, 0⟩, 1, some 0, 1, 0, 4⟩] =
      [(1, 1), (1, 3)] := by
  unfold DendriteDiameterQuadraticApprox.accumulate
  simp only [List.length_cons, List.length_nil, show List.range 2 = [0, 1] from by decide,
    List.foldl_cons, List.foldl_nil, List.getD_cons_zero, List.getD_cons_succ,
    show List.replicate 2 ((0 : ℕ), (0 : ℝ)) = [(0, 0), (0, 0)] from rfl]
  rw [if_neg (show ¬Node.is_terminal ⟨⟨0, 0, 0⟩, 10, none, 0, 1, 0⟩ from by
    simp [Node.is_terminal])]
  rw [if_pos (show Node.is_terminal ⟨⟨4, 0, 0⟩, 1, some 0, 1, 0, 4⟩ from rfl)]
  simp only [instrs_asym, dend_asym, List.getD_cons_succ, List.getD_cons_zero]
  simp only [dd_test]
  rw [interp_points_single_gt (by norm_num : (1 : ℝ) < 4)]
  simp only [List.getD_cons_zero]
  norm_num [scale_polynomial, m_asym]
  exact run4_walk

theorem run4_solver :
    DendriteDiameterQuadraticApprox.calculate_quadratic_diameters dd_test instrs_asym
      [⟨⟨0, 0, 0⟩, 10, none, 0, 1, 0⟩, ⟨⟨4, 0, 0⟩, 1, some 0, 1, 0, 4⟩] =
      [⟨⟨0, 0, 0⟩, 10, none, 0, 1, 0⟩, ⟨⟨4, 0, 0⟩, 3, some 0, 1, 0, 4⟩] := by
  unfold DendriteDiameterQuadraticApprox.calculate_quadratic_diameters
  rw [run4_accumulate]
  simp only [List.zip_cons_cons, List.zip_nil_right, List.map_cons, List.map_nil,
    instrs_asym, dend_asym, soma10, List.getD_cons_zero, List.getD_cons_succ]
  norm_num [m_asym]

theorem create_asym_eval :
    create dd_test 10 instrs_asym =
      some [⟨⟨0, 0, 0⟩, 10, none, 0, 1, 0⟩, ⟨⟨4, 0, 0⟩, 3, some 0, 1, 0, 4⟩] := by
  unfold create
  rw [if_pos ⟨check_soma_dend (simple_params 5 50 (by norm_num) (by norm_num) 10),
    by norm_num [instrs_asym, soma10, dend_asym],
    by norm_num [instrs_asym, soma10, dend_asym]⟩]
  rw [run4_instrs]
  show some (DendriteDiameterQuadraticApprox.calculate_quadratic_diameters dd_test instrs_asym
    [⟨⟨0, 0, 0⟩, 10, none, 0, 1, 0⟩, ⟨⟨4, 0, 0⟩, 1, some 0, 1, 0, 4⟩]) = _
  rw [run4_solver]


/-!  Concrete runs for claim C10: an instruction with neither a morphology
nor a soma diameter fails validation (a panic in Rust, none in the model),
while a morphology with extension_distance = 0 passes the code's
non-strict assertions even though the specification's parameter table
demands a strictly positive extension distance. -/

theorem invalid_not_check : ¬Instruction.check [instr_invalid] := by
  intro h
  obtain ⟨-, sd, hsd, -⟩ := h 0 instr_invalid rfl
  exact Option.noConfusion (hsd : (none : Option ℝ) = some sd)

theorem create_invalid_eval : create dd_test 10 [instr_invalid] = none := by
  unfold create
  rw [if_neg (fun hc => invalid_not_check hc.1)]

theorem zero_ext_check : Instruction.check [instr_zero_ext] := by
  intro i instr h
  rcases i with _ | n
  · simp only [List.get?_cons_zero] at h
    cases h
    exact ⟨simple_params 0 100 (le_refl 0) (by norm_num) 1,
      fun r hr => absurd hr (List.not_mem_nil r), rfl⟩
  · simp only [List.get?_cons_succ] at h
    exact absurd h (by simp)

theorem create_zero_ext_eval : create dd_test 10 [instr_zero_ext] = some [] := by
  unfold create
  rw [if_pos ⟨zero_ext_check, by norm_num, by norm_num [instr_zero_ext]⟩]
  rfl


/-!  Infrastructure for the path-length invariant (claim C9): the remaining
branches of the loop body, membership facts for pop and for the seeded
queue, and indexing helpers. -/

theorem process_segment_skip_branches {morphology : Morphology} {carrier_points : List Vec3}
    {instr_index : ℕ} {nodes : List Node} {occupied : List Bool}
    {seg : PotentialSegment} {rest : List PotentialSegment}
    (h1 : occupied.getD seg.carrier_index false = false)
    (h2 : (nodes.getD seg.parent_index default).is_segment ∧
      (nodes.getD seg.parent_index default).num_children > morphology.maximum_branches) :
    process_segment morphology carrier_points instr_index nodes occupied seg rest =
      ⟨nodes, occupied, rest⟩ := by
  unfold process_segment
  rw [if_neg (by rw [h1]; exact Bool.false_ne_true)]
  simp only []
  rw [if_pos h2]

theorem process_segment_skip_angle {morphology : Morphology} {carrier_points : List Vec3}
    {instr_index : ℕ} {nodes : List Node} {occupied : List Bool}
    {seg : PotentialSegment} {rest : List PotentialSegment}
    (h1 : occupied.getD seg.carrier_index false = false)
    (h2 : ¬((nodes.getD seg.parent_index default).is_segment ∧
      (nodes.getD seg.parent_index default).num_children > morphology.maximum_branches))
    (h3 : ¬(((distance (nodes.getD seg.parent_index default).coordinates
        (carrier_points.getD seg.carrier_index default) : ℝ) : EReal) >
      pop_maximum_distance morphology (nodes.getD seg.parent_index default)))
    (h4 : (if (nodes.getD seg.parent_index default).num_children = 0 then
        morphology.extension_angle else morphology.branch_angle) <
        Real.pi - f64_epsilon ∧
      (nodes.getD seg.parent_index default).is_segment ∧
      angle (sub (nodes.getD ((nodes.getD seg.parent_index default).parent_index.getD 0)
          default).coordinates
          (nodes.getD seg.parent_index default).coordinates)
        (sub (nodes.getD seg.parent_index default).coordinates
          (carrier_points.getD seg.carrier_index default)) >
        (if (nodes.getD seg.parent_index default).num_children = 0 then
          morphology.extension_angle else morphology.branch_angle)) :
    process_segment morphology carrier_points instr_index nodes occupied seg rest =
      ⟨nodes, occupied, rest⟩ := by
  unfold process_segment
  rw [if_neg (by rw [h1]; exact Bool.false_ne_true)]
  simp only []
  rw [if_neg h2, if_neg h3, if_pos h4]

theorem process_segment_requeue {morphology : Morphology} {carrier_points : List Vec3}
    {instr_index : ℕ} {nodes : List Node} {occupied : List Bool}
    {seg : PotentialSegment} {rest : List PotentialSegment}
    (h1 : occupied.getD seg.carrier_index false = false)
    (h2 : ¬((nodes.getD seg.parent_index default).is_segment ∧
      (nodes.getD seg.parent_index default).num_children > morphology.maximum_branches))
    (h3 : ¬(((distance (nodes.getD seg.parent_index default).coordinates
        (carrier_points.getD seg.carrier_index default) : ℝ) : EReal) >
      pop_maximum_distance morphology (nodes.getD seg.parent_index default)))
    (h4 : ¬((if (nodes.getD seg.parent_index default).num_children = 0 then
        morphology.extension_angle else morphology.branch_angle) <
        Real.pi - f64_epsilon ∧
      (nodes.getD seg.parent_index default).is_segment ∧
      angle (sub (nodes.getD ((nodes.getD seg.parent_index default).parent_index.getD 0)
          default).coordinates
          (nodes.getD seg.parent_index default).coordinates)
        (sub (nodes.getD seg.parent_index default).coordinates
          (carrier_points.getD seg.carrier_index default)) >
        (if (nodes.getD seg.parent_index default).num_children = 0 then
          morphology.extension_angle else morphology.branch_angle)))
    (h5 : morphology.extend_before_branch ∧
      seg.branch_num < (nodes.getD seg.parent_index default).num_children) :
    process_segment morphology carrier_points instr_index nodes occupied seg rest =
      ⟨nodes, occupied, rest ++
        [{ seg with branch_num := (nodes.getD seg.parent_index default).num_children }]⟩ := by
  unfold process_segment
  rw [if_neg (by rw [h1]; exact Bool.false_ne_true)]
  simp only []
  rw [if_neg h2, if_neg h3, if_neg h4, if_pos h5]

theorem pop_best_mem {q : List PotentialSegment} {c : PotentialSegment}
    {rest : List PotentialSegment} (h : pop_best q = some (c, rest)) :
    c ∈ q ∧ ∀ a ∈ rest, a ∈ q := by
  induction q generalizing c rest with
  | nil => simp [pop_best] at h
  | cons x xs ih =>
    simp only [pop_best] at h
    cases hx : pop_best xs with
    | none =>
      rw [hx] at h
      replace h : some (x, ([] : List PotentialSegment)) = some (c, rest) := h
      obtain ⟨rfl, rfl⟩ : x = c ∧ ([] : List PotentialSegment) = rest := by
        cases h; exact ⟨rfl, rfl⟩
      exact ⟨List.mem_cons_self _ _, by intro a ha; simp at ha⟩
    | some p =>
      obtain ⟨y, ys⟩ := p
      rw [hx] at h
      replace h : (if x.cmp y = Ordering.lt then some (y, x :: ys) else some (x, xs)) =
        some (c, rest) := h
      by_cases hcmp : x.cmp y = Ordering.lt
      · rw [if_pos hcmp] at h
        obtain ⟨rfl, rfl⟩ : y = c ∧ x :: ys = rest := by cases h; exact ⟨rfl, rfl⟩
        obtain ⟨hy, hys⟩ := ih hx
        refine ⟨List.mem_cons_of_mem _ hy, ?_⟩
        intro a ha
        rcases List.mem_cons.mp ha with rfl | ha
        · exact List.mem_cons_self _ _
        · exact List.mem_cons_of_mem _ (hys a ha)
      · rw [if_neg hcmp] at h
        obtain ⟨rfl, rfl⟩ : x = c ∧ xs = rest := by cases h; exact ⟨rfl, rfl⟩
        exact ⟨List.mem_cons_self _ _, fun a ha => List.mem_cons_of_mem _ ha⟩

theorem getElem?_lt_length {α : Type} {l : List α} {i : ℕ} {x : α}
    (h : l[i]? = some x) : i < l.length := by
  obtain ⟨hh, -⟩ := List.getElem?_eq_some_iff.mp h
  exact hh

theorem getD_of_getElem? {α : Type} [Inhabited α] {l : List α} {i : ℕ} {x : α}
    (h : l[i]? = some x) : l.getD i default = x := by
  rw [List.getD_eq_getElem?_getD, h]
  rfl

theorem getElem?_of_getD {α : Type} [Inhabited α] {l : List α} {i : ℕ}
    (h : i < l.length) : l[i]? = some (l.getD i default) := by
  rw [List.getD_eq_getElem?_getD, List.getElem?_eq_getElem h]
  rfl

theorem getD_mem {α : Type} [Inhabited α] {l : List α} {i : ℕ} (h : i < l.length) :
    l.getD i default ∈ l := by
  rw [List.getD_eq_getElem?_getD, List.getElem?_eq_getElem h]
  exact List.getElem_mem h


/-- One pass of the loop body preserves the structural well-formedness of
the node array and the bounds on the queued candidates, and never shrinks
the node array. -/
theorem process_segment_wf {morphology : Morphology} {cps : List Vec3} {ii : ℕ}
    {nodes : List Node} {occ : List Bool} {seg : PotentialSegment}
    {rest : List PotentialSegment} {instrs : List Instruction}
    (hcp : (instrs.getD ii default).carrier_points = cps)
    (hwf : nodes_wf instrs nodes)
    (hq : ∀ c ∈ rest, c.parent_index < nodes.length ∧ c.carrier_index < cps.length)
    (hseg : seg.parent_index < nodes.length ∧ seg.carrier_index < cps.length) :
    nodes_wf instrs (process_segment morphology cps ii nodes occ seg rest).nodes ∧
    (∀ c ∈ (process_segment morphology cps ii nodes occ seg rest).queue,
      c.parent_index < (process_segment morphology cps ii nodes occ seg rest).nodes.length ∧
      c.carrier_index < cps.length) ∧
    nodes.length ≤ (process_segment morphology cps ii nodes occ seg rest).nodes.length := by
  by_cases hocc : occ.getD seg.carrier_index false = true
  · rw [process_segment_skip_occupied hocc]
    exact ⟨hwf, hq, le_refl _⟩
  have hocc' : occ.getD seg.carrier_index false = false := by
    cases hb : occ.getD seg.carrier_index false
    · rfl
    · exact absurd hb hocc
  by_cases h2 : (nodes.getD seg.parent_index default).is_segment ∧
      (nodes.getD seg.parent_index default).num_children > morphology.maximum_branches
  · rw [process_segment_skip_branches hocc' h2]
    exact ⟨hwf, hq, le_refl _⟩
  by_cases h3 : ((distance (nodes.getD seg.parent_index default).coordinates
      (cps.getD seg.carrier_index default) : ℝ) : EReal) >
      pop_maximum_distance morphology (nodes.getD seg.parent_index default)
  · rw [process_segment_skip_distance hocc' h2 h3]
    exact ⟨hwf, hq, le_refl _⟩
  by_cases h4 : (if (nodes.getD seg.parent_index default).num_children = 0 then
        morphology.extension_angle else morphology.branch_angle) <
        Real.pi - f64_epsilon ∧
      (nodes.getD seg.parent_index default).is_segment ∧
      angle (sub (nodes.getD ((nodes.getD seg.parent_index default).parent_index.getD 0)
          default).coordinates
          (nodes.getD seg.parent_index default).coordinates)
        (sub (nodes.getD seg.parent_index default).coordinates
          (cps.getD seg.carrier_index default)) >
        (if (nodes.getD seg.parent_index default).num_children = 0 then
          morphology.extension_angle else morphology.branch_angle)
  · rw [process_segment_skip_angle hocc' h2 h3 h4]
    exact ⟨hwf, hq, le_refl _⟩
  by_cases h5 : morphology.extend_before_branch ∧
      seg.branch_num < (nodes.getD seg.parent_index default).num_children
  · rw [process_segment_requeue hocc' h2 h3 h4 h5]
    refine ⟨hwf, ?_, le_refl _⟩
    intro c hc
    rcases List.mem_append.mp hc with hc | hc
    · exact hq c hc
    · obtain rfl := List.mem_singleton.mp hc
      exact ⟨hseg.1, hseg.2⟩
  rw [process_segment_commit hocc' h2 h3 h4 h5]
  have hP : nodes[seg.parent_index]? = some (nodes.getD seg.parent_index default) :=
    getElem?_of_getD hseg.1
  have hLapp : (nodes ++ [Node.new_segment (cps.getD seg.carrier_index default)
      morphology.minimum_diameter seg.parent_index ii
      ((nodes.getD seg.parent_index default).path_length +
        distance (nodes.getD seg.parent_index default).coordinates
          (cps.getD seg.carrier_index default))]).length = nodes.length + 1 := by
    rw [List.length_append]
    rfl
  have hLen : (((nodes ++ [Node.new_segment (cps.getD seg.carrier_index default)
      morphology.minimum_diameter seg.parent_index ii
      ((nodes.getD seg.parent_index default).path_length +
        distance (nodes.getD seg.parent_index default).coordinates
          (cps.getD seg.carrier_index default))]).set seg.parent_index
        { nodes.getD seg.parent_index default with
          num_children := (nodes.getD seg.parent_index default).num_children + 1 }).length) =
      nodes.length + 1 := by
    rw [List.length_set, hLapp]
  have hAtP : (((nodes ++ [Node.new_segment (cps.getD seg.carrier_index default)
      morphology.minimum_diameter seg.parent_index ii
      ((nodes.getD seg.parent_index default).path_length +
        distance (nodes.getD seg.parent_index default).coordinates
          (cps.getD seg.carrier_index default))]).set seg.parent_index
        { nodes.getD seg.parent_index default with
          num_children := (nodes.getD seg.parent_index default).num_children + 1 }))[
        seg.parent_index]? =
      some { nodes.getD seg.parent_index default with
        num_children := (nodes.getD seg.parent_index default).num_children + 1 } :=
    List.getElem?_set_self (by rw [hLapp]; omega)
  have hAtOld : ∀ j, j ≠ seg.parent_index → j < nodes.length →
      (((nodes ++ [Node.new_segment (cps.getD seg.carrier_index default)
        morphology.minimum_diameter seg.parent_index ii
        ((nodes.getD seg.parent_index default).path_length +
          distance (nodes.getD seg.parent_index default).coordinates
            (cps.getD seg.carrier_index default))]).set seg.parent_index
          { nodes.getD seg.parent_index default with
            num_children := (nodes.getD seg.parent_index default).num_children + 1 }))[j]? =
        nodes[j]? := by
    intro j hne hj
    rw [List.getElem?_set_ne (Ne.symm hne), List.getElem?_append, if_pos hj]
  have hAtNew : (((nodes ++ [Node.new_segment (cps.getD seg.carrier_index default)
      morphology.minimum_diameter seg.parent_index ii
      ((nodes.getD seg.parent_index default).path_length +
        distance (nodes.getD seg.parent_index default).coordinates
          (cps.getD seg.carrier_index default))]).set seg.parent_index
        { nodes.getD seg.parent_index default with
          num_children := (nodes.getD seg.parent_index default).num_children + 1 }))[
        nodes.length]? =
      some (Node.new_segment (cps.getD seg.carrier_index default)
        morphology.minimum_diameter seg.parent_index ii
        ((nodes.getD seg.parent_index default).path_length +
          distance (nodes.getD seg.parent_index default).coordinates
            (cps.getD seg.carrier_index default))) := by
    rw [List.getElem?_set_ne (Nat.ne_of_lt hseg.1), List.getElem?_append_right (le_refl _)]
    simp
  refine ⟨?_, ?_, ?_⟩
  · intro i n hin
    have hiL : i < nodes.length + 1 := by
      have := getElem?_lt_length hin
      rwa [hLen] at this
    by_cases hiP : i = seg.parent_index
    · subst hiP
      rw [hAtP] at hin
      obtain rfl : { nodes.getD seg.parent_index default with
          num_children := (nodes.getD seg.parent_index default).num_children + 1 } = n := by
        cases hin; rfl
      constructor
      · intro hroot
        exact (hwf seg.parent_index _ hP).1 hroot
      · intro p hp
        obtain ⟨hplt, pn, hpn, heq, hmem⟩ := (hwf seg.parent_index _ hP).2 p hp
        refine ⟨hplt, pn, ?_, heq, hmem⟩
        rw [hAtOld p (Nat.ne_of_lt hplt) (hplt.trans hseg.1)]
        exact hpn
    · by_cases hiL2 : i < nodes.length
      · rw [hAtOld i hiP hiL2] at hin
        refine ⟨(hwf i n hin).1, ?_⟩
        intro p hp
        obtain ⟨hplt, pn, hpn, heq, hmem⟩ := (hwf i n hin).2 p hp
        by_cases hpP : p = seg.parent_index
        · subst hpP
          obtain rfl : nodes.getD seg.parent_index default = pn := by
            rw [hP] at hpn; cases hpn; rfl
          exact ⟨hplt, _, hAtP, heq, hmem⟩
        · refine ⟨hplt, pn, ?_, heq, hmem⟩
          rw [hAtOld p hpP (hplt.trans hiL2)]
          exact hpn
      · have hiL3 : i = nodes.length := by omega
        subst hiL3
        rw [hAtNew] at hin
        obtain rfl : Node.new_segment (cps.getD seg.carrier_index default)
            morphology.minimum_diameter seg.parent_index ii
            ((nodes.getD seg.parent_index default).path_length +
              distance (nodes.getD seg.parent_index default).coordinates
                (cps.getD seg.carrier_index default)) = n := by
          cases hin; rfl
        constructor
        · intro hroot
          exact absurd hroot (by simp [Node.new_segment])
        · intro p hp
          have hpeq : seg.parent_index = p := by
            replace hp : some seg.parent_index = some p := hp
            cases hp; rfl
          subst hpeq
          refine ⟨hseg.1, _, hAtP, rfl, ?_⟩
          show cps.getD seg.carrier_index default ∈ (instrs.getD ii default).carrier_points
          rw [hcp]
          exact getD_mem hseg.2
  · intro c hc
    rcases List.mem_append.mp hc with hc | hc
    · refine ⟨?_, (hq c hc).2⟩
      rw [hLen]
      exact (hq c hc).1.trans (Nat.lt_succ_self _)
    · obtain ⟨hpi, -, hci, -⟩ := mem_consider_all hc
      refine ⟨?_, hci⟩
      rw [hLen, hpi]
      exact Nat.lt_succ_self _
  · rw [hLen]
    exact Nat.le_succ _


theorem grow_step_wf {morphology : Morphology} {cps : List Vec3} {ii : ℕ}
    {instrs : List Instruction} {s s2 : GrowState}
    (hcp : (instrs.getD ii default).carrier_points = cps)
    (hwf : nodes_wf instrs s.nodes)
    (hq : ∀ c ∈ s.queue, c.parent_index < s.nodes.length ∧ c.carrier_index < cps.length)
    (h : grow_step morphology cps ii s = some s2) :
    nodes_wf instrs s2.nodes ∧
    (∀ c ∈ s2.queue, c.parent_index < s2.nodes.length ∧ c.carrier_index < cps.length) ∧
    s.nodes.length ≤ s2.nodes.length := by
  unfold grow_step at h
  cases hpop : pop_best s.queue with
  | none =>
    rw [hpop] at h
    replace h : (none : Option GrowState) = some s2 := h
    cases h
  | some p =>
    obtain ⟨seg, rest⟩ := p
    rw [hpop] at h
    replace h : some (process_segment morphology cps ii s.nodes s.occupied seg rest) =
      some s2 := h
    obtain rfl : process_segment morphology cps ii s.nodes s.occupied seg rest = s2 := by
      cases h; rfl
    have hmem := pop_best_mem hpop
    exact process_segment_wf hcp hwf (fun c hc => hq c (hmem.2 c hc)) (hq seg hmem.1)

theorem grow_loop_wf {morphology : Morphology} {cps : List Vec3} {ii : ℕ}
    {instrs : List Instruction} :
    ∀ (fuel : ℕ) (s s' : GrowState),
    (instrs.getD ii default).carrier_points = cps →
    nodes_wf instrs s.nodes →
    (∀ c ∈ s.queue, c.parent_index < s.nodes.length ∧ c.carrier_index < cps.length) →
    grow_loop morphology cps ii fuel s = some s' →
    nodes_wf instrs s'.nodes ∧ s.nodes.length ≤ s'.nodes.length := by
  intro fuel
  induction fuel with
  | zero =>
    intro s s' hcp hwf hq h
    replace h : (match pop_best s.queue with
      | none => some s
      | some _ => none) = some s' := h
    cases hpop : pop_best s.queue with
    | none =>
      rw [hpop] at h
      replace h : some s = some s' := h
      obtain rfl : s = s' := by cases h; rfl
      exact ⟨hwf, le_refl _⟩
    | some p =>
      rw [hpop] at h
      replace h : (none : Option GrowState) = some s' := h
      cases h
  | succ fuel ih =>
    intro s s' hcp hwf hq h
    replace h : (match grow_step morphology cps ii s with
      | none => some s
      | some s2 => grow_loop morphology cps ii fuel s2) = some s' := h
    cases hgs : grow_step morphology cps ii s with
    | none =>
      rw [hgs] at h
      replace h : some s = some s' := h
      obtain rfl : s = s' := by cases h; rfl
      exact ⟨hwf, le_refl _⟩
    | some s2 =>
      rw [hgs] at h
      replace h : grow_loop morphology cps ii fuel s2 = some s' := h
      obtain ⟨hwf2, hq2, hlen2⟩ := grow_step_wf hcp hwf hq hgs
      obtain ⟨hwf3, hlen3⟩ := ih s2 s' hcp hwf2 hq2 h
      exact ⟨hwf3, hlen2.trans hlen3⟩

theorem mem_seed_queue {morphology : Morphology} {instr : Instruction}
    {nodes : List Node} {sections : List (ℕ × ℕ)} {c : PotentialSegment}
    (hsec : sections_wf sections nodes)
    (hc : c ∈ seed_queue morphology instr nodes sections) :
    c.parent_index < nodes.length ∧ c.carrier_index < instr.carrier_points.length := by
  unfold seed_queue at hc
  simp only [] at hc
  rw [List.mem_flatMap] at hc
  obtain ⟨root_instr, hroot, hc⟩ := hc
  rw [List.mem_flatMap] at hc
  obtain ⟨root_index, hri, hc⟩ := hc
  obtain ⟨hpi, -, hci, -⟩ := mem_consider_all hc
  refine ⟨?_, hci⟩
  rw [hpi]
  have hmem := List.mem_range'_1.mp hri
  by_cases hlt : root_instr < sections.length
  · have hin : sections.getD root_instr (0, 0) ∈ sections := by
      rw [List.getD_eq_getElem?_getD, List.getElem?_eq_getElem hlt]
      exact List.getElem_mem hlt
    have h2 := hsec _ hin
    omega
  · have hdef : sections.getD root_instr (0, 0) = (0, 0) := by
      rw [List.getD_eq_getElem?_getD, List.getElem?_eq_none (by omega)]
      rfl
    rw [hdef] at hmem
    simp at hmem

theorem run_instruction_wf {fuel ii : ℕ} {instr : Instruction} {nodes : List Node}
    {sections : List (ℕ × ℕ)} {out : List Node × List (ℕ × ℕ)}
    {instrs : List Instruction}
    (hinstr : instrs.getD ii default = instr)
    (hwf : nodes_wf instrs nodes) (hsec : sections_wf sections nodes)
    (h : run_instruction fuel ii instr nodes sections = some out) :
    nodes_wf instrs out.1 ∧ sections_wf out.2 out.1 ∧ nodes.length ≤ out.1.length := by
  unfold run_instruction at h
  cases hm : instr.morphology with
  | none =>
    rw [hm] at h
    cases hd : instr.soma_diameter with
    | none =>
      rw [hd] at h
      replace h : (none : Option (List Node × List (ℕ × ℕ))) = some out := h
      cases h
    | some d =>
      rw [hd] at h
      replace h : some (nodes ++ instr.carrier_points.map
          (fun coordinates => Node.new_root coordinates d ii),
          sections ++ [(nodes.length, (nodes ++ instr.carrier_points.map
            (fun coordinates => Node.new_root coordinates d ii)).length)]) = some out := h
      obtain rfl : (nodes ++ instr.carrier_points.map
          (fun coordinates => Node.new_root coordinates d ii),
          sections ++ [(nodes.length, (nodes ++ instr.carrier_points.map
            (fun coordinates => Node.new_root coordinates d ii)).length)]) = out := by
        cases h; rfl
      have hlen : nodes.length ≤ (nodes ++ instr.carrier_points.map
          (fun coordinates => Node.new_root coordinates d ii)).length := by
        rw [List.length_append]
        omega
      refine ⟨?_, ?_, hlen⟩
      · intro i n hin
        by_cases hi : i < nodes.length
        · rw [List.getElem?_append, if_pos hi] at hin
          refine ⟨(hwf i n hin).1, ?_⟩
          intro p hp
          obtain ⟨hplt, pn, hpn, heq, hmem⟩ := (hwf i n hin).2 p hp
          refine ⟨hplt, pn, ?_, heq, hmem⟩
          rw [List.getElem?_append, if_pos (hplt.trans hi)]
          exact hpn
        · rw [List.getElem?_append, if_neg hi] at hin
          rw [List.getElem?_map] at hin
          cases hcp : instr.carrier_points[i - nodes.length]? with
          | none => rw [hcp] at hin; cases hin
          | some cpt =>
            rw [hcp] at hin
            replace hin : some (Node.new_root cpt d ii) = some n := hin
            obtain rfl : Node.new_root cpt d ii = n := by cases hin; rfl
            constructor
            · intro _
              rfl
            · intro p hp
              replace hp : (none : Option ℕ) = some p := hp
              cases hp
      · intro se hse
        rcases List.mem_append.mp hse with hse | hse
        · exact (hsec se hse).trans hlen
        · obtain rfl := List.mem_singleton.mp hse
          exact le_refl _
  | some m =>
    rw [hm] at h
    replace h : (match grow_loop m instr.carrier_points ii fuel
        ⟨nodes, List.replicate instr.carrier_points.length false,
          seed_queue m instr nodes sections⟩ with
      | none => none
      | some s => some (s.nodes, sections ++ [(nodes.length, s.nodes.length)])) = some out := h
    cases hg : grow_loop m instr.carrier_points ii fuel
        ⟨nodes, List.replicate instr.carrier_points.length false,
          seed_queue m instr nodes sections⟩ with
    | none =>
      rw [hg] at h
      replace h : (none : Option (List Node × List (ℕ × ℕ))) = some out := h
      cases h
    | some s =>
      rw [hg] at h
      replace h : some (s.nodes, sections ++ [(nodes.length, s.nodes.length)]) = some out := h
      obtain rfl : (s.nodes, sections ++ [(nodes.length, s.nodes.length)]) = out := by
        cases h; rfl
      have hcp : (instrs.getD ii default).carrier_points = instr.carrier_points := by
        rw [hinstr]
      obtain ⟨hwf', hlen⟩ := grow_loop_wf fuel
        ⟨nodes, List.replicate instr.carrier_points.length false,
          seed_queue m instr nodes sections⟩ s hcp hwf
        (fun c hc => mem_seed_queue hsec hc) hg
      refine ⟨hwf', ?_, hlen⟩
      intro se hse
      rcases List.mem_append.mp hse with hse | hse
      · exact (hsec se hse).trans hlen
      · obtain rfl := List.mem_singleton.mp hse
        exact le_refl _


theorem run_instructions_wf {instrs : List Instruction} {fuel : ℕ} :
    ∀ (rest : List Instruction) (k : ℕ) (nodes : List Node) (sections : List (ℕ × ℕ))
      (out : List Node × List (ℕ × ℕ)),
      (∀ j instr, rest[j]? = some instr → instrs.getD (k + j) default = instr) →
      nodes_wf instrs nodes → sections_wf sections nodes →
      run_instructions fuel rest k (nodes, sections) = some out →
      nodes_wf instrs out.1 ∧ sections_wf out.2 out.1 := by
  intro rest
  induction rest with
  | nil =>
    intro k nodes sections out _ hwf hsec h
    replace h : some ((nodes, sections) : List Node × List (ℕ × ℕ)) = some out := h
    obtain rfl : ((nodes, sections) : List Node × List (ℕ × ℕ)) = out := by cases h; rfl
    exact ⟨hwf, hsec⟩
  | cons instr rest ih =>
    intro k nodes sections out hj hwf hsec h
    replace h : (match run_instruction fuel k instr nodes sections with
      | none => none
      | some acc2 => run_instructions fuel rest (k + 1) acc2) = some out := h
    cases hr : run_instruction fuel k instr nodes sections with
    | none =>
      rw [hr] at h
      replace h : (none : Option (List Node × List (ℕ × ℕ))) = some out := h
      cases h
    | some acc2 =>
      obtain ⟨n2, s2⟩ := acc2
      rw [hr] at h
      replace h : run_instructions fuel rest (k + 1) (n2, s2) = some out := h
      have h0 : instrs.getD (k + 0) default = instr :=
        hj 0 instr (by rw [List.getElem?_cons_zero])
      rw [Nat.add_zero] at h0
      obtain ⟨hwf2, hsec2, -⟩ := run_instruction_wf h0 hwf hsec hr
      refine ih (k + 1) n2 s2 out ?_ hwf2 hsec2 h
      intro j instr' hj'
      have hstep := hj (j + 1) instr' (by rw [List.getElem?_cons_succ]; exact hj')
      rw [show k + (j + 1) = k + 1 + j from by omega] at hstep
      exact hstep

theorem path_walk_length (nodes : List Node) (polynomial : ℝ × ℝ × ℝ)
    (normalization_factor : ℝ) :
    ∀ (fuel cursor : ℕ) (accum : List (ℕ × ℝ)),
    (path_walk nodes polynomial normalization_factor fuel cursor accum).length =
      accum.length := by
  intro fuel
  induction fuel with
  | zero => intro cursor accum; rfl
  | succ fuel ih =>
    intro cursor accum
    show (match (nodes.getD cursor default).parent_index with
      | some parent_index => path_walk nodes polynomial normalization_factor fuel parent_index
          (accum.set cursor
            ((accum.getD cursor (0, 0)).1 + 1,
              (accum.getD cursor (0, 0)).2 + eval_polynomial polynomial
                ((nodes.getD cursor default).path_length * normalization_factor)))
      | none => accum.set cursor
          ((accum.getD cursor (0, 0)).1 + 1,
            (accum.getD cursor (0, 0)).2 + eval_polynomial polynomial
              ((nodes.getD cursor default).path_length * normalization_factor))).length =
      accum.length
    cases hp : (nodes.getD cursor default).parent_index with
    | none =>
      exact List.length_set accum cursor _
    | some parent_index =>
      exact (ih parent_index _).trans (List.length_set accum cursor _)

theorem foldl_length {α : Type} (f : List (ℕ × ℝ) → α → List (ℕ × ℝ))
    (hf : ∀ acc a, (f acc a).length = acc.length) :
    ∀ (l : List α) (acc : List (ℕ × ℝ)), (l.foldl f acc).length = acc.length := by
  intro l
  induction l with
  | nil => intro acc; rfl
  | cons x xs ih =>
    intro acc
    rw [List.foldl_cons, ih, hf]

theorem accumulate_length (dd : DendriteDiameterQuadraticApprox)
    (instructions : List Instruction) (nodes : List Node) :
    (DendriteDiameterQuadraticApprox.accumulate dd instructions nodes).length =
      nodes.length := by
  unfold DendriteDiameterQuadraticApprox.accumulate
  rw [foldl_length _ ?_ _ _, List.length_replicate]
  intro acc a
  dsimp only
  split
  · split
    · rfl
    · rw [path_walk_length]
  · rfl


/-- The diameter solver keeps the node array's length and every field of
every node except the diameter. -/
theorem calculate_quadratic_diameters_fields (dd : DendriteDiameterQuadraticApprox)
    (instructions : List Instruction) (nodes : List Node) :
    (DendriteDiameterQuadraticApprox.calculate_quadratic_diameters dd instructions
      nodes).length = nodes.length ∧
    ∀ (i : ℕ) (n : Node), nodes[i]? = some n →
      ∃ n', (DendriteDiameterQuadraticApprox.calculate_quadratic_diameters dd instructions
          nodes)[i]? = some n' ∧
        n'.coordinates = n.coordinates ∧ n'.parent_index = n.parent_index ∧
        n'.instruction_index = n.instruction_index ∧ n'.path_length = n.path_length ∧
        n'.num_children = n.num_children := by
  have hacc := accumulate_length dd instructions nodes
  unfold DendriteDiameterQuadraticApprox.calculate_quadratic_diameters
  constructor
  · rw [List.length_map, List.length_zip, hacc, min_self]
  · intro i n hin
    have hi : i < nodes.length := getElem?_lt_length hin
    have hi2 : i < (DendriteDiameterQuadraticApprox.accumulate dd instructions
        nodes).length := by
      rw [hacc]
      exact hi
    have hzi : i < (nodes.zip (DendriteDiameterQuadraticApprox.accumulate dd instructions
        nodes)).length := by
      rw [List.length_zip, hacc, min_self]
      exact hi
    have hz : (nodes.zip (DendriteDiameterQuadraticApprox.accumulate dd instructions
        nodes))[i]? =
        some ((nodes.zip (DendriteDiameterQuadraticApprox.accumulate dd instructions
          nodes))[i]) :=
      List.getElem?_eq_getElem hzi
    have hzv : (nodes.zip (DendriteDiameterQuadraticApprox.accumulate dd instructions
        nodes))[i] =
        (nodes[i], (DendriteDiameterQuadraticApprox.accumulate dd instructions nodes)[i]) :=
      List.getElem_zip
    have hnv : nodes[i] = n := by
      have h2 := List.getElem?_eq_getElem hi
      rw [hin] at h2
      cases h2
      rfl
    rw [List.getElem?_map, hz, hzv, hnv]
    refine ⟨_, rfl, ?_, ?_, ?_, ?_, ?_⟩ <;>
      (dsimp only; split <;> first | rfl | (split <;> rfl))

theorem solver_nodes_wf {dd : DendriteDiameterQuadraticApprox}
    {instrs : List Instruction} {nodes : List Node} (hwf : nodes_wf instrs nodes) :
    nodes_wf instrs
      (DendriteDiameterQuadraticApprox.calculate_quadratic_diameters dd instrs nodes) := by
  obtain ⟨hlen, hfields⟩ := calculate_quadratic_diameters_fields dd instrs nodes
  intro i n' hin'
  have hi : i < nodes.length := by
    have := getElem?_lt_length hin'
    rwa [hlen] at this
  have hni : nodes[i]? = some (nodes.getD i default) := getElem?_of_getD hi
  obtain ⟨n'', hn'', hco, hpa, hii, hpl, hnc⟩ := hfields i _ hni
  obtain rfl : n'' = n' := by rw [hin'] at hn''; cases hn''; rfl
  have hw := hwf i _ hni
  constructor
  · intro hroot
    rw [hpl]
    exact hw.1 (by rw [← hpa]; exact hroot)
  · intro p hp
    have hp' : (nodes.getD i default).parent_index = some p := by rw [← hpa]; exact hp
    obtain ⟨hplt, pn, hpn, heq, hmem⟩ := hw.2 p hp'
    obtain ⟨pn', hpn', hco2, hpa2, hii2, hpl2, hnc2⟩ := hfields p pn hpn
    refine ⟨hplt, pn', hpn', ?_, ?_⟩
    · rw [hpl, hco, hpl2, hco2]
      exact heq
    · rw [hco, hii]
      exact hmem

/-- Every node array create returns is structurally well formed: roots have
path length zero, non-root nodes point to an earlier parent, carry path
length equal to the parent's plus the segment length, and sit on a carrier
point of their instruction. -/
theorem create_nodes_wf {dd : DendriteDiameterQuadraticApprox} {fuel : ℕ}
    {instrs : List Instruction} {out : List Node}
    (h : create dd fuel instrs = some out) : nodes_wf instrs out := by
  unfold create at h
  by_cases hc : Instruction.check instrs ∧ instrs.length < 4294967295 ∧
      (instrs.map (fun i => i.carrier_points.length)).sum < 4294967295
  · rw [if_pos hc] at h
    cases hr : run_instructions fuel instrs 0 ([], []) with
    | none =>
      rw [hr] at h
      replace h : (none : Option (List Node)) = some out := h
      cases h
    | some acc =>
      rw [hr] at h
      replace h : some (DendriteDiameterQuadraticApprox.calculate_quadratic_diameters dd
        instrs acc.1) = some out := h
      obtain rfl : DendriteDiameterQuadraticApprox.calculate_quadratic_diameters dd
          instrs acc.1 = out := by cases h; rfl
      have hwf0 : nodes_wf instrs ([] : List Node) := by
        intro i n hin
        exact absurd hin (by simp)
      have hsec0 : sections_wf ([] : List (ℕ × ℕ)) ([] : List Node) :=
        fun se hse => absurd hse (List.not_mem_nil se)
      have hj : ∀ j instr, instrs[j]? = some instr → instrs.getD (0 + j) default = instr := by
        intro j instr hj'
        rw [Nat.zero_add]
        exact getD_of_getElem? hj'
      obtain ⟨hwf, -⟩ := @run_instructions_wf instrs fuel instrs 0 [] [] acc hj hwf0 hsec0 hr
      exact solver_nodes_wf hwf
  · rw [if_neg hc] at h
    replace h : (none : Option (List Node)) = some out := h
    cases h


/-!  Infrastructure for the branch-count bound (claim C5). -/

/-- One pass of the loop body preserves the child-count bound: a commit
happens only when the guard found the non-root parent within the morphology
limit, so the increment can reach at most that limit plus one. -/
theorem process_segment_branch {morphology : Morphology} {cps : List Vec3} {ii : ℕ}
    {nodes : List Node} {occ : List Bool} {seg : PotentialSegment}
    {rest : List PotentialSegment} {mb : ℕ}
    (hmb : morphology.maximum_branches ≤ mb)
    (hinv : nodes_branch_bound mb nodes) :
    nodes_branch_bound mb (process_segment morphology cps ii nodes occ seg rest).nodes := by
  by_cases hocc : occ.getD seg.carrier_index false = true
  · rw [process_segment_skip_occupied hocc]
    exact hinv
  have hocc' : occ.getD seg.carrier_index false = false := by
    cases hb : occ.getD seg.carrier_index false
    · rfl
    · exact absurd hb hocc
  by_cases h2 : (nodes.getD seg.parent_index default).is_segment ∧
      (nodes.getD seg.parent_index default).num_children > morphology.maximum_branches
  · rw [process_segment_skip_branches hocc' h2]
    exact hinv
  by_cases h3 : ((distance (nodes.getD seg.parent_index default).coordinates
      (cps.getD seg.carrier_index default) : ℝ) : EReal) >
      pop_maximum_distance morphology (nodes.getD seg.parent_index default)
  · rw [process_segment_skip_distance hocc' h2 h3]
    exact hinv
  by_cases h4 : (if (nodes.getD seg.parent_index default).num_children = 0 then
        morphology.extension_angle else morphology.branch_angle) <
        Real.pi - f64_epsilon ∧
      (nodes.getD seg.parent_index default).is_segment ∧
      angle (sub (nodes.getD ((nodes.getD seg.parent_index default).parent_index.getD 0)
          default).coordinates
          (nodes.getD seg.parent_index default).coordinates)
        (sub (nodes.getD seg.parent_index default).coordinates
          (cps.getD seg.carrier_index default)) >
        (if (nodes.getD seg.parent_index default).num_children = 0 then
          morphology.extension_angle else morphology.branch_angle)
  · rw [process_segment_skip_angle hocc' h2 h3 h4]
    exact hinv
  by_cases h5 : morphology.extend_before_branch ∧
      seg.branch_num < (nodes.getD seg.parent_index default).num_children
  · rw [process_segment_requeue hocc' h2 h3 h4 h5]
    exact hinv
  rw [process_segment_commit hocc' h2 h3 h4 h5]
  intro i n hin hne
  by_cases hip : i = seg.parent_index
  · subst hip
    by_cases hlt : seg.parent_index < (nodes ++ [Node.new_segment
        (cps.getD seg.carrier_index default) morphology.minimum_diameter seg.parent_index ii
        ((nodes.getD seg.parent_index default).path_length +
          distance (nodes.getD seg.parent_index default).coordinates
            (cps.getD seg.carrier_index default))]).length
    · rw [List.getElem?_set_self hlt] at hin
      obtain rfl : { nodes.getD seg.parent_index default with
          num_children := (nodes.getD seg.parent_index default).num_children + 1 } = n := by
        cases hin; rfl
      have hseg2 : (nodes.getD seg.parent_index default).is_segment := hne
      have hle : (nodes.getD seg.parent_index default).num_children ≤
          morphology.maximum_branches := by
        by_contra hgt
        exact h2 ⟨hseg2, Nat.lt_of_not_le hgt⟩
      show (nodes.getD seg.parent_index default).num_children + 1 ≤ mb + 1
      omega
    · rw [List.set_eq_of_length_le (Nat.le_of_not_lt hlt)] at hin
      rw [List.getElem?_eq_none (Nat.le_of_not_lt hlt)] at hin
      cases hin
  · rw [List.getElem?_set_ne (fun hh => hip hh.symm)] at hin
    by_cases hiL : i < nodes.length
    · rw [List.getElem?_append, if_pos hiL] at hin
      exact hinv i n hin hne
    · rw [List.getElem?_append, if_neg hiL] at hin
      cases hk : [Node.new_segment (cps.getD seg.carrier_index default)
          morphology.minimum_diameter seg.parent_index ii
          ((nodes.getD seg.parent_index default).path_length +
            distance (nodes.getD seg.parent_index default).coordinates
              (cps.getD seg.carrier_index default))][i - nodes.length]? with
      | none =>
        rw [hk] at hin
        cases hin
      | some nn =>
        rw [hk] at hin
        obtain rfl : nn = n := by cases hin; rfl
        have : nn = Node.new_segment (cps.getD seg.carrier_index default)
            morphology.minimum_diameter seg.parent_index ii
            ((nodes.getD seg.parent_index default).path_length +
              distance (nodes.getD seg.parent_index default).coordinates
                (cps.getD seg.carrier_index default)) := by
          cases hik : i - nodes.length with
          | zero =>
            rw [hik] at hk
            cases hk
            rfl
          | succ k =>
            rw [hik] at hk
            rw [show ([Node.new_segment (cps.getD seg.carrier_index default)
              morphology.minimum_diameter seg.parent_index ii
              ((nodes.getD seg.parent_index default).path_length +
                distance (nodes.getD seg.parent_index default).coordinates
                  (cps.getD seg.carrier_index default))][k + 1]? :
              Option Node) = none from by simp] at hk
            cases hk
        rw [this] at hne ⊢
        show (0 : ℕ) ≤ mb + 1
        omega


theorem grow_step_branch {morphology : Morphology} {cps : List Vec3} {ii : ℕ}
    {mb : ℕ} {s s2 : GrowState}
    (hmb : morphology.maximum_branches ≤ mb)
    (hinv : nodes_branch_bound mb s.nodes)
    (h : grow_step morphology cps ii s = some s2) :
    nodes_branch_bound mb s2.nodes := by
  unfold grow_step at h
  cases hpop : pop_best s.queue with
  | none =>
    rw [hpop] at h
    replace h : (none : Option GrowState) = some s2 := h
    cases h
  | some p =>
    obtain ⟨seg, rest⟩ := p
    rw [hpop] at h
    replace h : some (process_segment morphology cps ii s.nodes s.occupied seg rest) =
      some s2 := h
    obtain rfl : process_segment morphology cps ii s.nodes s.occupied seg rest = s2 := by
      cases h; rfl
    exact process_segment_branch hmb hinv

theorem grow_loop_branch {morphology : Morphology} {cps : List Vec3} {ii mb : ℕ} :
    ∀ (fuel : ℕ) (s s' : GrowState),
    morphology.maximum_branches ≤ mb →
    nodes_branch_bound mb s.nodes →
    grow_loop morphology cps ii fuel s = some s' →
    nodes_branch_bound mb s'.nodes := by
  intro fuel
  induction fuel with
  | zero =>
    intro s s' hmb hinv h
    replace h : (match pop_best s.queue with
      | none => some s
      | some _ => none) = some s' := h
    cases hpop : pop_best s.queue with
    | none =>
      rw [hpop] at h
      replace h : some s = some s' := h
      obtain rfl : s = s' := by cases h; rfl
      exact hinv
    | some p =>
      rw [hpop] at h
      replace h : (none : Option GrowState) = some s' := h
      cases h
  | succ fuel ih =>
    intro s s' hmb hinv h
    replace h : (match grow_step morphology cps ii s with
      | none => some s
      | some s2 => grow_loop morphology cps ii fuel s2) = some s' := h
    cases hgs : grow_step morphology cps ii s with
    | none =>
      rw [hgs] at h
      replace h : some s = some s' := h
      obtain rfl : s = s' := by cases h; rfl
      exact hinv
    | some s2 =>
      rw [hgs] at h
      replace h : grow_loop morphology cps ii fuel s2 = some s' := h
      exact ih s2 s' hmb (grow_step_branch hmb hinv hgs) h

theorem run_instruction_branch {fuel ii mb : ℕ} {instr : Instruction}
    {nodes : List Node} {sections : List (ℕ × ℕ)} {out : List Node × List (ℕ × ℕ)}
    (hmb : ∀ m, instr.morphology = some m → m.maximum_branches ≤ mb)
    (hinv : nodes_branch_bound mb nodes)
    (h : run_instruction fuel ii instr nodes sections = some out) :
    nodes_branch_bound mb out.1 := by
  unfold run_instruction at h
  cases hm : instr.morphology with
  | none =>
    rw [hm] at h
    cases hd : instr.soma_diameter with
    | none =>
      rw [hd] at h
      replace h : (none : Option (List Node × List (ℕ × ℕ))) = some out := h
      cases h
    | some d =>
      rw [hd] at h
      replace h : some (nodes ++ instr.carrier_points.map
          (fun coordinates => Node.new_root coordinates d ii),
          sections ++ [(nodes.length, (nodes ++ instr.carrier_points.map
            (fun coordinates => Node.new_root coordinates d ii)).length)]) = some out := h
      obtain rfl : (nodes ++ instr.carrier_points.map
          (fun coordinates => Node.new_root coordinates d ii),
          sections ++ [(nodes.length, (nodes ++ instr.carrier_points.map
            (fun coordinates => Node.new_root coordinates d ii)).length)]) = out := by
        cases h; rfl
      intro i n hin hne
      by_cases hi : i < nodes.length
      · rw [List.getElem?_append, if_pos hi] at hin
        exact hinv i n hin hne
      · rw [List.getElem?_append, if_neg hi] at hin
        rw [List.getElem?_map] at hin
        cases hcp : instr.carrier_points[i - nodes.length]? with
        | none =>
          rw [hcp] at hin
          cases hin
        | some cpt =>
          rw [hcp] at hin
          replace hin : some (Node.new_root cpt d ii) = some n := hin
          obtain rfl : Node.new_root cpt d ii = n := by cases hin; rfl
          exact absurd rfl hne
  | some m =>
    rw [hm] at h
    replace h : (match grow_loop m instr.carrier_points ii fuel
        ⟨nodes, List.replicate instr.carrier_points.length false,
          seed_queue m instr nodes sections⟩ with
      | none => none
      | some s => some (s.nodes, sections ++ [(nodes.length, s.nodes.length)])) = some out := h
    cases hg : grow_loop m instr.carrier_points ii fuel
        ⟨nodes, List.replicate instr.carrier_points.length false,
          seed_queue m instr nodes sections⟩ with
    | none =>
      rw [hg] at h
      replace h : (none : Option (List Node × List (ℕ × ℕ))) = some out := h
      cases h
    | some s =>
      rw [hg] at h
      replace h : some (s.nodes, sections ++ [(nodes.length, s.nodes.length)]) = some out := h
      obtain rfl : (s.nodes, sections ++ [(nodes.length, s.nodes.length)]) = out := by
        cases h; rfl
      exact grow_loop_branch fuel _ s (hmb m hm) hinv hg

theorem run_instructions_branch {fuel mb : ℕ} :
    ∀ (rest : List Instruction) (k : ℕ) (nodes : List Node) (sections : List (ℕ × ℕ))
      (out : List Node × List (ℕ × ℕ)),
      (∀ instr ∈ rest, ∀ m, instr.morphology = some m → m.maximum_branches ≤ mb) →
      nodes_branch_bound mb nodes →
      run_instructions fuel rest k (nodes, sections) = some out →
      nodes_branch_bound mb out.1 := by
  intro rest
  induction rest with
  | nil =>
    intro k nodes sections out _ hinv h
    replace h : some ((nodes, sections) : List Node × List (ℕ × ℕ)) = some out := h
    obtain rfl : ((nodes, sections) : List Node × List (ℕ × ℕ)) = out := by cases h; rfl
    exact hinv
  | cons instr rest ih =>
    intro k nodes sections out hmb hinv h
    replace h : (match run_instruction fuel k instr nodes sections with
      | none => none
      | some acc2 => run_instructions fuel rest (k + 1) acc2) = some out := h
    cases hr : run_instruction fuel k instr nodes sections with
    | none =>
      rw [hr] at h
      replace h : (none : Option (List Node × List (ℕ × ℕ))) = some out := h
      cases h
    | some acc2 =>
      obtain ⟨n2, s2⟩ := acc2
      rw [hr] at h
      replace h : run_instructions fuel rest (k + 1) (n2, s2) = some out := h
      have hinv2 := run_instruction_branch
        (fun m hm => hmb instr (List.mem_cons_self _ _) m hm) hinv hr
      exact ih (k + 1) n2 s2 out
        (fun instr' hi m hm => hmb instr' (List.mem_cons_of_mem _ hi) m hm) hinv2 h

theorem solver_branch_bound {dd : DendriteDiameterQuadraticApprox}
    {instrs : List Instruction} {nodes : List Node} {mb : ℕ}
    (hinv : nodes_branch_bound mb nodes) :
    nodes_branch_bound mb
      (DendriteDiameterQuadraticApprox.calculate_quadratic_diameters dd instrs nodes) := by
  obtain ⟨hlen, hfields⟩ := calculate_quadratic_diameters_fields dd instrs nodes
  intro i n' hin' hne
  have hi : i < nodes.length := by
    have := getElem?_lt_length hin'
    rwa [hlen] at this
  have hni : nodes[i]? = some (nodes.getD i default) := getElem?_of_getD hi
  obtain ⟨n'', hn'', hco, hpa, hii, hpl, hnc⟩ := hfields i _ hni
  obtain rfl : n'' = n' := by rw [hin'] at hn''; cases hn''; rfl
  rw [hnc]
  exact hinv i _ hni (by rw [← hpa]; exact hne)

/-- Every node array create returns keeps each non-root node's child count
at most one above the largest maximum_branches of any morphology in the
instruction list: the main loop checks the bound before a commit and the
commit itself adds the final child. -/
theorem create_branch_bound {dd : DendriteDiameterQuadraticApprox} {fuel mb : ℕ}
    {instrs : List Instruction} {out : List Node}
    (hmb : ∀ instr ∈ instrs, ∀ m, instr.morphology = some m → m.maximum_branches ≤ mb)
    (h : create dd fuel instrs = some out) : nodes_branch_bound mb out := by
  unfold create at h
  by_cases hc : Instruction.check instrs ∧ instrs.length < 4294967295 ∧
      (instrs.map (fun i => i.carrier_points.length)).sum < 4294967295
  · rw [if_pos hc] at h
    cases hr : run_instructions fuel instrs 0 ([], []) with
    | none =>
      rw [hr] at h
      replace h : (none : Option (List Node)) = some out := h
      cases h
    | some acc =>
      rw [hr] at h
      replace h : some (DendriteDiameterQuadraticApprox.calculate_quadratic_diameters dd
        instrs acc.1) = some out := h
      obtain rfl : DendriteDiameterQuadraticApprox.calculate_quadratic_diameters dd
          instrs acc.1 = out := by cases h; rfl
      have hinv0 : nodes_branch_bound mb ([] : List Node) := by
        intro i n hin
        exact absurd hin (by simp)
      exact solver_branch_bound (@run_instructions_branch fuel mb instrs 0 [] [] acc hmb hinv0 hr)
  · rw [if_neg hc] at h
    replace h : (none : Option (List Node)) = some out := h
    cases h


/-- The growth loop of one instruction only returns when its priority queue
has emptied; there is no relaxation pass that refills it. -/
theorem grow_loop_ends_empty {morphology : Morphology} {cps : List Vec3} {ii : ℕ} :
    ∀ (fuel : ℕ) (s s' : GrowState),
    grow_loop morphology cps ii fuel s = some s' → s'.queue = [] := by
  intro fuel
  induction fuel with
  | zero =>
    intro s s' h
    replace h : (match pop_best s.queue with
      | none => some s
      | some _ => none) = some s' := h
    cases hpop : pop_best s.queue with
    | none =>
      rw [hpop] at h
      replace h : some s = some s' := h
      obtain rfl : s = s' := by cases h; rfl
      exact (pop_best_eq_none_iff s.queue).mp hpop
    | some p =>
      rw [hpop] at h
      replace h : (none : Option GrowState) = some s' := h
      cases h
  | succ fuel ih =>
    intro s s' h
    replace h : (match grow_step morphology cps ii s with
      | none => some s
      | some s2 => grow_loop morphology cps ii fuel s2) = some s' := h
    cases hgs : grow_step morphology cps ii s with
    | none =>
      rw [hgs] at h
      replace h : some s = some s' := h
      obtain rfl : s = s' := by cases h; rfl
      unfold grow_step at hgs
      cases hpop : pop_best s.queue with
      | none => exact (pop_best_eq_none_iff s.queue).mp hpop
      | some p =>
        obtain ⟨seg, rest⟩ := p
        rw [hpop] at hgs
        replace hgs : some (process_segment morphology cps ii s.nodes s.occupied seg rest) =
          none := hgs
        cases hgs
    | some s2 =>
      rw [hgs] at h
      replace h : grow_loop morphology cps ii fuel s2 = some s' := h
      exact ih s2 s' h

/-- A pass of the loop body that enlarges the node array passed the pop-time
distance recheck: the segment length did not exceed pop_maximum_distance. -/
theorem process_segment_commit_within_radius {morphology : Morphology} {cps : List Vec3}
    {ii : ℕ} {nodes : List Node} {occ : List Bool} {seg : PotentialSegment}
    {rest : List PotentialSegment}
    (h : (process_segment morphology cps ii nodes occ seg rest).nodes.length ≠
      nodes.length) :
    ¬(((distance (nodes.getD seg.parent_index default).coordinates
        (cps.getD seg.carrier_index default) : ℝ) : EReal) >
      pop_maximum_distance morphology (nodes.getD seg.parent_index default)) := by
  intro h3
  apply h
  by_cases hocc : occ.getD seg.carrier_index false = true
  · rw [process_segment_skip_occupied hocc]
  have hocc' : occ.getD seg.carrier_index false = false := by
    cases hb : occ.getD seg.carrier_index false
    · rfl
    · exact absurd hb hocc
  by_cases h2 : (nodes.getD seg.parent_index default).is_segment ∧
      (nodes.getD seg.parent_index default).num_children > morphology.maximum_branches
  · rw [process_segment_skip_branches hocc' h2]
  · rw [process_segment_skip_distance hocc' h2 h3]

/-- C9, confirmed: in every node array create returns, roots have path
length zero and every non-root node's path length is the parent's path
length plus the Euclidean distance between the two nodes — exactly, hence
also within the stated relative tolerance — and the diameter solver leaves
every path length unchanged. -/
theorem c9_path_length_invariant :
    (∀ (dd : DendriteDiameterQuadraticApprox) (fuel : ℕ) (instrs : List Instruction)
      (out : List Node),
      create dd fuel instrs = some out →
      ∀ (i : ℕ) (n : Node), out[i]? = some n →
        (n.parent_index = none → n.path_length = 0) ∧
        (∀ p, n.parent_index = some p → ∃ pn, out[p]? = some pn ∧
          n.path_length = pn.path_length + distance pn.coordinates n.coordinates ∧
          |n.path_length - (pn.path_length + distance pn.coordinates n.coordinates)| ≤
            1e-9 * max 1 n.path_length)) ∧
    (∀ (dd : DendriteDiameterQuadraticApprox) (instrs : List Instruction)
      (nodes : List Node) (i : ℕ) (n : Node),
      nodes[i]? = some n →
      ∃ n', (DendriteDiameterQuadraticApprox.calculate_quadratic_diameters dd instrs
        nodes)[i]? = some n' ∧ n'.path_length = n.path_length) := by
  constructor
  · intro dd fuel instrs out h i n hin
    have hwf := create_nodes_wf h
    refine ⟨(hwf i n hin).1, ?_⟩
    intro p hp
    obtain ⟨-, pn, hpn, heq, -⟩ := (hwf i n hin).2 p hp
    refine ⟨pn, hpn, heq, ?_⟩
    rw [heq]
    simp only [sub_self, abs_zero]
    positivity
  · intro dd instrs nodes i n hin
    obtain ⟨n', hn', -, -, -, hpl, -⟩ :=
      (calculate_quadratic_diameters_fields dd instrs nodes).2 i n hin
    exact ⟨n', hn', hpl⟩

/-- Witness for C9 at the two-node program: the returned root has path
length 0 and the terminal's path length is 0 plus the distance 100. -/
theorem c9_witness :
    ∀ (i : ℕ) (n : Node),
      ([⟨⟨0, 0, 0⟩, 10, none, 0, 1, 0⟩, ⟨⟨100, 0, 0⟩, 3, some 0, 1, 0, 100⟩] :
        List Node)[i]? = some n →
      (n.parent_index = none → n.path_length = 0) ∧
      (∀ p, n.parent_index = some p → ∃ pn,
        ([⟨⟨0, 0, 0⟩, 10, none, 0, 1, 0⟩, ⟨⟨100, 0, 0⟩, 3, some 0, 1, 0, 100⟩] :
          List Node)[p]? = some pn ∧
        n.path_length = pn.path_length + distance pn.coordinates n.coordinates ∧
        |n.path_length - (pn.path_length + distance pn.coordinates n.coordinates)| ≤
          1e-9 * max 1 n.path_length) :=
  c9_path_length_invariant.1 dd_test 10 instrs_far _ create_far_eval

/-- C5, amended: the loop's guard compares with strict inequality before the
commit itself adds one more child, so the bound the returned array obeys is
maximum_branches + 1, uniformly over every morphology of the program. -/
theorem c5_branch_bound_plus_one :
    ∀ (dd : DendriteDiameterQuadraticApprox) (fuel mb : ℕ) (instrs : List Instruction)
      (out : List Node),
      (∀ instr ∈ instrs, ∀ m, instr.morphology = some m → m.maximum_branches ≤ mb) →
      create dd fuel instrs = some out →
      ∀ (i : ℕ) (n : Node), out[i]? = some n → n.parent_index ≠ none →
        n.num_children ≤ mb + 1 :=
  fun _ _ _ _ _ hmb h => create_branch_bound hmb h

/-- Witness for C5 at the chain program with maximum_branches 0: the
non-root middle node of the result has at most one child. -/
theorem c5_witness :
    (⟨⟨10, 0, 0⟩, 7 / 4, some 0, 1, 1, 10⟩ : Node).num_children ≤ 0 + 1 :=
  c5_branch_bound_plus_one dd_test 10 0 instrs_chain
    [⟨⟨0, 0, 0⟩, 10, none, 0, 1, 0⟩, ⟨⟨10, 0, 0⟩, 7 / 4, some 0, 1, 1, 10⟩,
      ⟨⟨20, 0, 0⟩, 3, some 1, 1, 0, 20⟩]
    (by
      intro instr hi m hm
      rcases List.mem_cons.mp hi with rfl | hi
      · exact absurd hm (by simp [soma10])
      rcases List.mem_cons.mp hi with rfl | hi
      · replace hm : some m_nobranch = some m := hm
        obtain rfl : m_nobranch = m := by cases hm; rfl
        exact le_refl _
      · exact absurd hi (by simp))
    create_chain_eval 1 _ (by simp) (by simp)

/-- C5, counterexample to the original bound: with maximum_branches = 0 the
chain program returns a non-root node with one child. -/
theorem c5_counterexample :
    create dd_test 10 instrs_chain =
      some [⟨⟨0, 0, 0⟩, 10, none, 0, 1, 0⟩, ⟨⟨10, 0, 0⟩, 7 / 4, some 0, 1, 1, 10⟩,
        ⟨⟨20, 0, 0⟩, 3, some 1, 1, 0, 20⟩] ∧
    m_nobranch.maximum_branches = 0 ∧
    (dend_chain.morphology = some m_nobranch) ∧
    (([⟨⟨0, 0, 0⟩, 10, none, 0, 1, 0⟩, ⟨⟨10, 0, 0⟩, 7 / 4, some 0, 1, 1, 10⟩,
      ⟨⟨20, 0, 0⟩, 3, some 1, 1, 0, 20⟩] : List Node).getD 1 default).parent_index =
      some 0 ∧
    (([⟨⟨0, 0, 0⟩, 10, none, 0, 1, 0⟩, ⟨⟨10, 0, 0⟩, 7 / 4, some 0, 1, 1, 10⟩,
      ⟨⟨20, 0, 0⟩, 3, some 1, 1, 0, 20⟩] : List Node).getD 1 default).num_children = 1 ∧
    ¬((([⟨⟨0, 0, 0⟩, 10, none, 0, 1, 0⟩, ⟨⟨10, 0, 0⟩, 7 / 4, some 0, 1, 1, 10⟩,
      ⟨⟨20, 0, 0⟩, 3, some 1, 1, 0, 20⟩] : List Node).getD 1 default).num_children ≤
      m_nobranch.maximum_branches) := by
  refine ⟨create_chain_eval, rfl, rfl, rfl, rfl, ?_⟩
  show ¬((1 : ℕ) ≤ 0)
  omega


/-- C6, amended: the pop-time recheck commits only segments whose length is
within pop_maximum_distance, and for a childless non-root parent that
radius is extension_distance, not the maximum of the two limits the claim
states. -/
theorem c6_pop_recheck_radius :
    (∀ (morphology : Morphology) (cps : List Vec3) (ii : ℕ) (nodes : List Node)
      (occ : List Bool) (seg : PotentialSegment) (rest : List PotentialSegment),
      (process_segment morphology cps ii nodes occ seg rest).nodes.length ≠
        nodes.length →
      ¬(((distance (nodes.getD seg.parent_index default).coordinates
          (cps.getD seg.carrier_index default) : ℝ) : EReal) >
        pop_maximum_distance morphology (nodes.getD seg.parent_index default))) ∧
    (∀ (morphology : Morphology) (pn : Node), ¬pn.is_root → pn.num_children = 0 →
      pop_maximum_distance morphology pn = morphology.extension_distance) := by
  constructor
  · intro m cps ii nodes occ seg rest h
    exact process_segment_commit_within_radius h
  · intro m pn hroot hnc
    unfold pop_maximum_distance
    rw [if_pos (Or.inr hnc)]

/-- Witness for C6: for the asymmetric morphology the pop-time radius of the
childless non-root node at [4,0,0] is its extension limit. -/
theorem c6_witness :
    pop_maximum_distance m_asym ⟨⟨4, 0, 0⟩, 1, some 0, 1, 0, 4⟩ =
      m_asym.extension_distance :=
  c6_pop_recheck_radius.2 m_asym ⟨⟨4, 0, 0⟩, 1, some 0, 1, 0, 4⟩
    (by simp [Node.is_root]) rfl

/-- C6, counterexample to the claimed pop-time radius: with extension limit
5 and branch limit 50 the code's pop-time radius at a childless non-root
parent is 5, the claim's is 50, and the candidate at distance 8 — inside
the claimed radius — is dropped: the second carrier point never becomes a
node. -/
theorem c6_counterexample :
    pop_maximum_distance m_asym ⟨⟨4, 0, 0⟩, 1, some 0, 1, 0, 4⟩ = ((5 : ℝ) : EReal) ∧
    claimed_pop_radius m_asym ⟨⟨4, 0, 0⟩, 1, some 0, 1, 0, 4⟩ = ((50 : ℝ) : EReal) ∧
    ((5 : ℝ) : EReal) ≠ ((50 : ℝ) : EReal) ∧
    distance (⟨4, 0, 0⟩ : Vec3) ⟨12, 0, 0⟩ = 8 ∧
    ((8 : ℝ) : EReal) ≤ claimed_pop_radius m_asym ⟨⟨4, 0, 0⟩, 1, some 0, 1, 0, 4⟩ ∧
    create dd_test 10 instrs_asym =
      some [⟨⟨0, 0, 0⟩, 10, none, 0, 1, 0⟩, ⟨⟨4, 0, 0⟩, 3, some 0, 1, 0, 4⟩] ∧
    (([⟨⟨0, 0, 0⟩, 10, none, 0, 1, 0⟩, ⟨⟨4, 0, 0⟩, 3, some 0, 1, 0, 4⟩] :
      List Node).getD 0 default).coordinates ≠ (⟨12, 0, 0⟩ : Vec3) ∧
    (([⟨⟨0, 0, 0⟩, 10, none, 0, 1, 0⟩, ⟨⟨4, 0, 0⟩, 3, some 0, 1, 0, 4⟩] :
      List Node).getD 1 default).coordinates ≠ (⟨12, 0, 0⟩ : Vec3) := by
  have hclaimed : claimed_pop_radius m_asym ⟨⟨4, 0, 0⟩, 1, some 0, 1, 0, 4⟩ =
      ((50 : ℝ) : EReal) := by
    unfold claimed_pop_radius
    rw [if_neg (show ¬Node.is_root ⟨⟨4, 0, 0⟩, 1, some 0, 1, 0, 4⟩ from by
      simp [Node.is_root])]
    rw [if_pos (show Node.num_children ⟨⟨4, 0, 0⟩, 1, some 0, 1, 0, 4⟩ = 0 from rfl)]
    show max (((5 : ℝ) : EReal)) (((50 : ℝ) : EReal)) = _
    exact max_eq_right (by rw [EReal.coe_le_coe_iff]; norm_num)
  refine ⟨?_, hclaimed, ?_, ?_, ?_, create_asym_eval, ?_, ?_⟩
  · simp [pop_maximum_distance, Node.is_root, m_asym]
  · rw [ne_eq, EReal.coe_eq_coe_iff]
    norm_num
  · rw [distance_mk]
    exact sqrt_eval (by norm_num) (by norm_num)
  · rw [hclaimed, EReal.coe_le_coe_iff]
    norm_num
  · intro hEq
    replace hEq : (⟨0, 0, 0⟩ : Vec3) = ⟨12, 0, 0⟩ := hEq
    injection hEq with hx
    norm_num at hx
  · intro hEq
    replace hEq : (⟨4, 0, 0⟩ : Vec3) = ⟨12, 0, 0⟩ := hEq
    injection hEq with hx
    norm_num at hx

/-- C1, amended: no synthetic soma-surface anchor exists.  The two-node
program returns exactly root and carrier-point terminal, and in every
create output each non-root node sits on a carrier point of its own
instruction, so no non-carrier anchor node is ever inserted. -/
theorem c1_no_soma_anchor :
    create dd_test 10 instrs_far =
      some [⟨⟨0, 0, 0⟩, 10, none, 0, 1, 0⟩, ⟨⟨100, 0, 0⟩, 3, some 0, 1, 0, 100⟩] ∧
    (∀ (dd : DendriteDiameterQuadraticApprox) (fuel : ℕ) (instrs : List Instruction)
      (out : List Node) (i : ℕ) (n : Node),
      create dd fuel instrs = some out → out[i]? = some n → n.parent_index ≠ none →
      n.coordinates ∈ (instrs.getD n.instruction_index default).carrier_points) := by
  refine ⟨create_far_eval, ?_⟩
  intro dd fuel instrs out i n h hin hne
  have hwf := create_nodes_wf h
  cases hp : n.parent_index with
  | none => exact absurd hp hne
  | some p =>
    obtain ⟨-, pn, -, -, hmem⟩ := (hwf i n hin).2 p hp
    exact hmem

/-- Witness for C1: the terminal node of the two-node program sits on the
dendrite instruction's carrier point. -/
theorem c1_witness :
    (⟨⟨100, 0, 0⟩, 3, some 0, 1, 0, 100⟩ : Node).coordinates ∈
      (instrs_far.getD (⟨⟨100, 0, 0⟩, 3, some 0, 1, 0, 100⟩ :
        Node).instruction_index default).carrier_points :=
  c1_no_soma_anchor.2 dd_test 10 instrs_far
    [⟨⟨0, 0, 0⟩, 10, none, 0, 1, 0⟩, ⟨⟨100, 0, 0⟩, 3, some 0, 1, 0, 100⟩] 1
    ⟨⟨100, 0, 0⟩, 3, some 0, 1, 0, 100⟩ create_far_eval (by simp) (by simp)

/-- C1, counterexample: the soma-plus-far-dendrite program returns 2 nodes,
not the 3 the claim describes, and neither has the claimed anchor path
length 5 (the soma radius). -/
theorem c1_counterexample :
    create dd_test 10 instrs_far =
      some [⟨⟨0, 0, 0⟩, 10, none, 0, 1, 0⟩, ⟨⟨100, 0, 0⟩, 3, some 0, 1, 0, 100⟩] ∧
    ([⟨⟨0, 0, 0⟩, 10, none, 0, 1, 0⟩, ⟨⟨100, 0, 0⟩, 3, some 0, 1, 0, 100⟩] :
      List Node).length = 2 ∧
    ([⟨⟨0, 0, 0⟩, 10, none, 0, 1, 0⟩, ⟨⟨100, 0, 0⟩, 3, some 0, 1, 0, 100⟩] :
      List Node).length ≠ 3 ∧
    (([⟨⟨0, 0, 0⟩, 10, none, 0, 1, 0⟩, ⟨⟨100, 0, 0⟩, 3, some 0, 1, 0, 100⟩] :
      List Node).getD 0 default).path_length ≠ 5 ∧
    (([⟨⟨0, 0, 0⟩, 10, none, 0, 1, 0⟩, ⟨⟨100, 0, 0⟩, 3, some 0, 1, 0, 100⟩] :
      List Node).getD 1 default).path_length ≠ 5 := by
  refine ⟨create_far_eval, rfl, by norm_num, ?_, ?_⟩
  · show (0 : ℝ) ≠ 5
    norm_num
  · show (100 : ℝ) ≠ 5
    norm_num


/-- C2, amended: the Morphology of this code has no reach_all_carrier_points
switch and the engine has no relaxation pass: the growth loop of an
instruction simply ends when its queue empties, and a carrier point
outside the distance limits stays uncovered, as the short-limit program
shows. -/
theorem c2_no_relaxation_pass :
    (∀ (morphology : Morphology) (cps : List Vec3) (ii fuel : ℕ) (s s' : GrowState),
      grow_loop morphology cps ii fuel s = some s' → s'.queue = []) ∧
    create dd_test 10 instrs_short = some [⟨⟨0, 0, 0⟩, 10, none, 0, 0, 0⟩] ∧
    dend_short.carrier_points = [⟨100, 0, 0⟩] ∧
    (([⟨⟨0, 0, 0⟩, 10, none, 0, 0, 0⟩] : List Node).getD 0 default).coordinates ≠
      (⟨100, 0, 0⟩ : Vec3) := by
  refine ⟨?_, create_short_eval, rfl, ?_⟩
  · intro m cps ii fuel s s' h
    exact grow_loop_ends_empty fuel s s' h
  · intro hEq
    replace hEq : (⟨0, 0, 0⟩ : Vec3) = ⟨100, 0, 0⟩ := hEq
    injection hEq with hx
    norm_num at hx

/-- Witness for C2: the loop on the emptied queue of the short-limit
dendrite returns with an empty queue. -/
theorem c2_witness : GrowState.queue ⟨[soma_root], [false], []⟩ = [] :=
  c2_no_relaxation_pass.1 m_short [⟨100, 0, 0⟩] 1 10 ⟨[soma_root], [false], []⟩
    ⟨[soma_root], [false], []⟩ rfl

/-- C2, counterexample to guaranteed carrier coverage: the short-limit
program's only dendrite carrier point, [100,0,0], is the coordinates of no
returned node — the result is the lone soma root. -/
theorem c2_counterexample :
    create dd_test 10 instrs_short = some [⟨⟨0, 0, 0⟩, 10, none, 0, 0, 0⟩] ∧
    (⟨100, 0, 0⟩ : Vec3) ∈ (instrs_short.getD 1 default).carrier_points ∧
    ([⟨⟨0, 0, 0⟩, 10, none, 0, 0, 0⟩] : List Node).length = 1 ∧
    (([⟨⟨0, 0, 0⟩, 10, none, 0, 0, 0⟩] : List Node).getD 0 default).coordinates ≠
      (⟨100, 0, 0⟩ : Vec3) := by
  refine ⟨create_short_eval, ?_, rfl, ?_⟩
  · show (⟨100, 0, 0⟩ : Vec3) ∈ [(⟨100, 0, 0⟩ : Vec3)]
    exact List.mem_singleton.mpr rfl
  · intro hEq
    replace hEq : (⟨0, 0, 0⟩ : Vec3) = ⟨100, 0, 0⟩ := hEq
    injection hEq with hx
    norm_num at hx

/-- C3, amended: there is no maximum_segment_length in this Morphology and
no segment subdivision: the far dendrite's carrier point becomes the
direct child of the root as a single emitted segment of length 100, and
every returned node sits at the root or at the carrier point — no node at
an interior fraction. -/
theorem c3_no_segment_subdivision :
    create dd_test 10 instrs_far =
      some [⟨⟨0, 0, 0⟩, 10, none, 0, 1, 0⟩, ⟨⟨100, 0, 0⟩, 3, some 0, 1, 0, 100⟩] ∧
    (([⟨⟨0, 0, 0⟩, 10, none, 0, 1, 0⟩, ⟨⟨100, 0, 0⟩, 3, some 0, 1, 0, 100⟩] :
      List Node).getD 1 default).parent_index = some 0 ∧
    distance (([⟨⟨0, 0, 0⟩, 10, none, 0, 1, 0⟩, ⟨⟨100, 0, 0⟩, 3, some 0, 1, 0, 100⟩] :
        List Node).getD 0 default).coordinates
      (([⟨⟨0, 0, 0⟩, 10, none, 0, 1, 0⟩, ⟨⟨100, 0, 0⟩, 3, some 0, 1, 0, 100⟩] :
        List Node).getD 1 default).coordinates = 100 ∧
    ∀ n ∈ ([⟨⟨0, 0, 0⟩, 10, none, 0, 1, 0⟩, ⟨⟨100, 0, 0⟩, 3, some 0, 1, 0, 100⟩] :
      List Node), n.coordinates = (⟨0, 0, 0⟩ : Vec3) ∨ n.coordinates = ⟨100, 0, 0⟩ := by
  refine ⟨create_far_eval, rfl, ?_, ?_⟩
  · show distance (⟨0, 0, 0⟩ : Vec3) ⟨100, 0, 0⟩ = 100
    rw [distance_mk]
    exact sqrt_eval (by norm_num) (by norm_num)
  · intro n hn
    rcases List.mem_cons.mp hn with rfl | hn
    · exact Or.inl rfl
    rcases List.mem_cons.mp hn with rfl | hn
    · exact Or.inr rfl
    · exact absurd hn (by simp)

/-- C3, counterexample to subdivision: the emitted parent-to-child segment
of the far dendrite is 100 long, yet the result holds only the root and
the terminal — no intermediate node was inserted. -/
theorem c3_counterexample :
    create dd_test 10 instrs_far =
      some [⟨⟨0, 0, 0⟩, 10, none, 0, 1, 0⟩, ⟨⟨100, 0, 0⟩, 3, some 0, 1, 0, 100⟩] ∧
    ([⟨⟨0, 0, 0⟩, 10, none, 0, 1, 0⟩, ⟨⟨100, 0, 0⟩, 3, some 0, 1, 0, 100⟩] :
      List Node).length = 2 ∧
    (([⟨⟨0, 0, 0⟩, 10, none, 0, 1, 0⟩, ⟨⟨100, 0, 0⟩, 3, some 0, 1, 0, 100⟩] :
      List Node).getD 1 default).parent_index = some 0 ∧
    distance (([⟨⟨0, 0, 0⟩, 10, none, 0, 1, 0⟩, ⟨⟨100, 0, 0⟩, 3, some 0, 1, 0, 100⟩] :
        List Node).getD 0 default).coordinates
      (([⟨⟨0, 0, 0⟩, 10, none, 0, 1, 0⟩, ⟨⟨100, 0, 0⟩, 3, some 0, 1, 0, 100⟩] :
        List Node).getD 1 default).coordinates = 100 ∧
    ¬(distance (([⟨⟨0, 0, 0⟩, 10, none, 0, 1, 0⟩, ⟨⟨100, 0, 0⟩, 3, some 0, 1, 0, 100⟩] :
        List Node).getD 0 default).coordinates
      (([⟨⟨0, 0, 0⟩, 10, none, 0, 1, 0⟩, ⟨⟨100, 0, 0⟩, 3, some 0, 1, 0, 100⟩] :
        List Node).getD 1 default).coordinates ≤ 50) := by
  have hd : distance (⟨0, 0, 0⟩ : Vec3) ⟨100, 0, 0⟩ = 100 := by
    rw [distance_mk]
    exact sqrt_eval (by norm_num) (by norm_num)
  refine ⟨create_far_eval, rfl, rfl, hd, ?_⟩
  show ¬(distance (⟨0, 0, 0⟩ : Vec3) ⟨100, 0, 0⟩ ≤ 50)
  rw [hd]
  norm_num

/-- C10, amended: validation failure is a panic (modelled none), not a
structured error value, and the acceptance condition is the code's
non-strict check: a morphology with extension_distance = 0, outside the
specification's parameter table, passes validation and runs. -/
theorem c10_validation_panics :
    (∀ (dd : DendriteDiameterQuadraticApprox) (fuel : ℕ) (instrs : List Instruction),
      ¬Instruction.check instrs → create dd fuel instrs = none) ∧
    Instruction.check [instr_zero_ext] ∧
    ¬spec_morphology_in_range m_zero_ext ∧
    create dd_test 10 [instr_zero_ext] = some [] := by
  refine ⟨?_, zero_ext_check, ?_, create_zero_ext_eval⟩
  · intro dd fuel instrs hchk
    unfold create
    rw [if_neg (fun hc => hchk hc.1)]
  · rintro ⟨-, h, -⟩
    rw [show m_zero_ext.extension_distance = ((0 : ℝ) : EReal) from rfl] at h
    rw [show ((0 : ℝ) : EReal) = (0 : EReal) from EReal.coe_zero] at h
    exact lt_irrefl _ h

/-- Witness for C10: the instruction with neither morphology nor soma
diameter makes create fail (the modelled panic). -/
theorem c10_witness : create dd_test 10 [instr_invalid] = none :=
  c10_validation_panics.1 dd_test 10 [instr_invalid] invalid_not_check

/-- C10, counterexample: create never returns an error value — an invalid
program yields the modelled panic (none) rather than a structured error,
and a program the specification's table rejects (extension_distance = 0)
is accepted and yields a result. -/
theorem c10_counterexample :
    ¬spec_morphology_in_range m_zero_ext ∧
    Instruction.check [instr_zero_ext] ∧
    create dd_test 10 [instr_zero_ext] = some [] ∧
    ¬Instruction.check [instr_invalid] ∧
    create dd_test 10 [instr_invalid] = none := by
  refine ⟨?_, zero_ext_check, create_zero_ext_eval, invalid_not_check, create_invalid_eval⟩
  rintro ⟨-, h, -⟩
  rw [show m_zero_ext.extension_distance = ((0 : ℝ) : EReal) from rfl] at h
  rw [show ((0 : ℝ) : EReal) = (0 : EReal) from EReal.coe_zero] at h
  exact lt_irrefl _ h


end MorphWiz
